import Mathlib

/-!
Verification of the block-allocation layer of the nachos repository
(src/filesys/filehdr.cc, class FileHeader).

The FileHeader operations (Allocate, Extend, Deallocate, FetchFrom,
WriteBack, ByteToSector, FileLength, Print) are shallowly embedded as
executable Lean functions over an explicit free-map, disk and header state.
Recursion through on-disk child headers is bounded by an explicit fuel
argument; a result of none means the fuel was exhausted (or, for
Deallocate, that one of its ASSERT checks failed).

The constants SectorSize, NumDirect, MaxFileSize (filehdr.h), the
divRoundUp macro (utility.h) and the BitMap free-sector map (bitmap.cc)
are parts of the repository that are not under src/; they are modelled
from the spec as noted in their doc comments.
-/

/-- Modelled from the spec: sector size constant from filehdr.h (not in
src/). Spec section 8, Scenario A fixes it at 128 bytes. -/
def SectorSize : Int := 128

/-- Modelled from the spec: NumDirect (called K in the spec) from
filehdr.h (not in src/). Spec section 6 derives K as
floor((sector_size - 4 - 4) / 4) = 30, and Scenario B uses K = 30. -/
def NumDirect : Nat := 30

/-- Modelled from the spec: MaxFileSize from filehdr.h (not in src/),
the byte-denominated maximum NumDirect * SectorSize = 3840 (spec section 9
calls it a byte-denominated maximum-size constant). -/
def MaxFileSize : Int := (NumDirect : Int) * SectorSize

/-- Modelled from the spec: the divRoundUp macro from utility.h (not in
src/), computing ceil(n / s) with C truncating integer division:
(n / s) + ((n % s > 0) ? 1 : 0). -/
def divRoundUp (n s : Int) : Int :=
  Int.tdiv n s + (if 0 < Int.tmod n s then 1 else 0)

/-- Modelled from the spec: the Free-Sector Map (bitmap.cc, not under
src/), spec section 6: a bitmap over the disk's sectors; true means the
sector is allocated. -/
structure BitMap where
  bits : List Bool
deriving DecidableEq, Repr

/-- Index of the first clear (false) bit of a bit list, if any. -/
def findClearIdx : List Bool → Option Nat
  | [] => none
  | b :: rest => if b then (findClearIdx rest).map (· + 1) else some 0

/-- Modelled from the spec: BitMap::NumClear, the number of clear bits,
returned as an int. -/
def BitMap.NumClear (bm : BitMap) : Int :=
  (bm.bits.countP (fun b => !b) : Nat)

/-- Modelled from the spec: BitMap::Find — find the first clear sector,
mark it allocated and return its number, or return -1 (leaving the map
unchanged) when no sector is clear. -/
def BitMap.find (bm : BitMap) : Int × BitMap :=
  match findClearIdx bm.bits with
  | some i => ((i : Int), ⟨bm.bits.set i true⟩)
  | none => (-1, bm)

/-- Modelled from the spec: BitMap::Test — whether the given sector is
marked allocated. Out-of-range sector numbers (which the C++ code
rejects with an ASSERT) test as false. -/
def BitMap.Test (bm : BitMap) (which : Int) : Bool :=
  decide (0 ≤ which) && bm.bits.getD which.toNat false

/-- Modelled from the spec: BitMap::Clear — mark the given sector clear.
Out-of-range sector numbers leave the map unchanged. -/
def BitMap.Clear (bm : BitMap) (which : Int) : BitMap :=
  if 0 ≤ which then ⟨bm.bits.set which.toNat false⟩ else bm

/-- The in-memory image of a FileHeader (filehdr.h): byte length, sector
count and the fixed table of NumDirect sector pointers.  The whole record
is what FetchFrom/WriteBack move between memory and one disk sector. -/
structure FileHeader where
  numBytes : Int
  numSectors : Int
  dataSectors : List Int
deriving DecidableEq, Repr

/-- A freshly constructed FileHeader.  The C++ constructor leaves the
fields indeterminate; the spec lifecycle says a node is created with zero
sectors and zero length, so the model zero-initializes. -/
def FileHeader.empty : FileHeader :=
  { numBytes := 0, numSectors := 0, dataSectors := List.replicate NumDirect 0 }

/-- The disk, addressed by sector number; each sector stores one
FileHeader image (only header sectors matter to these operations). -/
def Disk : Type := Int → FileHeader

/-- Read the header image stored at a sector (SynchDisk::ReadSector). -/
def Disk.read (d : Disk) (s : Int) : FileHeader := d s

/-- Write a header image to a sector (SynchDisk::WriteSector). -/
def Disk.write (d : Disk) (s : Int) (h : FileHeader) : Disk :=
  fun t => if t = s then h else d t

/-- FileHeader::FetchFrom — load this header's image from the given
sector. -/
def FileHeader.FetchFrom (disk : Disk) (sector : Int) : FileHeader :=
  disk.read sector

/-- FileHeader::WriteBack — store this header's image at the given
sector. -/
def FileHeader.WriteBack (hdr : FileHeader) (sector : Int) (disk : Disk) : Disk :=
  disk.write sector hdr

/-- FileHeader::FileLength — return the number of bytes in the file. -/
def FileHeader.FileLength (hdr : FileHeader) : Int := hdr.numBytes

/-- The allocation loop `for (i = start; i < start+count; i++)
dataSectors[i] = freeMap->Find();` shared by Allocate and Extend. -/
def claimLoop : List Int → BitMap → Nat → Nat → List Int × BitMap
  | ds, fm, _, 0 => (ds, fm)
  | ds, fm, i, count + 1 =>
    claimLoop (ds.set i (fm.find).1) (fm.find).2 (i + 1) count

/-- The deallocation loop `for (i = start; ...) { ASSERT(Test); Clear }`
of Deallocate; none models an ASSERT failure. -/
def clearLoop : BitMap → List Int → Nat → Nat → Option BitMap
  | fm, _, _, 0 => some fm
  | fm, ds, i, count + 1 =>
    if fm.Test (ds.getD i 0) then
      clearLoop (fm.Clear (ds.getD i 0)) ds (i + 1) count
    else none

/-- FileHeader::Allocate (filehdr.cc lines 41-68).  Returns the C++
bool result together with the header object, free map and disk after the
call; none only when the fuel bounding the self-recursion runs out. -/
def FileHeader.Allocate : Nat → FileHeader → BitMap → Disk → Int →
    Option (Bool × FileHeader × BitMap × Disk)
  | 0, _, _, _, _ => none
  | fuel + 1, hdr, freeMap, disk, fileSize =>
    if fileSize > MaxFileSize then some (false, hdr, freeMap, disk)
    else
      let h1 : FileHeader :=
        { hdr with numBytes := fileSize,
                   numSectors := divRoundUp fileSize SectorSize }
      if freeMap.NumClear < h1.numSectors then some (false, h1, freeMap, disk)
      else if fileSize > ((NumDirect : Int) - 1) * SectorSize then
        let p := claimLoop h1.dataSectors freeMap 0 (NumDirect - 1)
        (FileHeader.Allocate fuel FileHeader.empty p.2 disk
            (fileSize - ((NumDirect : Int) - 1) * SectorSize)).bind (fun r =>
          if r.1 = false then
            some (false, { h1 with dataSectors := p.1 }, r.2.2.1, r.2.2.2)
          else
            let q := (r.2.2.1).find
            some (true,
                  { h1 with dataSectors := p.1.set (NumDirect - 1) q.1 },
                  q.2,
                  (r.2.2.2).write q.1 r.2.1))
      else
        let p := claimLoop h1.dataSectors freeMap 0 h1.numSectors.toNat
        some (true, { h1 with dataSectors := p.1 }, p.2, disk)

/-- FileHeader::Extend (filehdr.cc lines 74-110).  Note that the size
ceiling check compares the new sector count against MaxFileSize (a byte
constant), and that in the direct-to-indirect case the return value of
the nested Allocate is ignored, exactly as in the source. -/
def FileHeader.Extend : Nat → FileHeader → BitMap → Disk → Int →
    Option (Bool × FileHeader × BitMap × Disk)
  | 0, _, _, _, _ => none
  | fuel + 1, hdr, freeMap, disk, fileSize =>
    let newNumSectors := divRoundUp fileSize SectorSize
    if newNumSectors > MaxFileSize then some (false, hdr, freeMap, disk)
    else if freeMap.NumClear < newNumSectors then some (false, hdr, freeMap, disk)
    else if fileSize > ((NumDirect : Int) - 1) * SectorSize then
      if hdr.numBytes ≤ ((NumDirect : Int) - 1) * SectorSize then
        let p := claimLoop hdr.dataSectors freeMap hdr.numSectors.toNat
          (((NumDirect : Int) - 1) - hdr.numSectors).toNat
        (FileHeader.Allocate fuel FileHeader.empty p.2 disk
            (fileSize - ((NumDirect : Int) - 1) * SectorSize)).bind (fun r =>
          let q := (r.2.2.1).find
          some (true,
                { numBytes := fileSize, numSectors := newNumSectors,
                  dataSectors := p.1.set (NumDirect - 1) q.1 },
                q.2,
                (r.2.2.2).write q.1 r.2.1))
      else
        (FileHeader.Extend fuel
            (disk.read (hdr.dataSectors.getD (NumDirect - 1) 0)) freeMap disk
            (fileSize - ((NumDirect : Int) - 1) * SectorSize)).bind (fun r =>
          if r.1 = false then some (false, hdr, r.2.2.1, r.2.2.2)
          else
            some (true,
                  { hdr with numBytes := fileSize, numSectors := newNumSectors },
                  r.2.2.1,
                  (r.2.2.2).write (hdr.dataSectors.getD (NumDirect - 1) 0) r.2.1))
    else
      let p := claimLoop hdr.dataSectors freeMap hdr.numSectors.toNat
        (newNumSectors - hdr.numSectors).toNat
      some (true,
            { numBytes := fileSize, numSectors := newNumSectors,
              dataSectors := p.1 },
            p.2, disk)

/-- FileHeader::Deallocate (filehdr.cc lines 119-137).  Returns the free
map after returning this chain's sectors; none models either fuel
exhaustion or a failed ASSERT(freeMap->Test(...)). -/
def FileHeader.Deallocate : Nat → FileHeader → BitMap → Disk → Option BitMap
  | 0, _, _, _ => none
  | fuel + 1, hdr, freeMap, disk =>
    if hdr.numSectors ≤ (NumDirect : Int) then
      clearLoop freeMap hdr.dataSectors 0 hdr.numSectors.toNat
    else
      (clearLoop freeMap hdr.dataSectors 0 (NumDirect - 1)).bind (fun fm1 =>
        (FileHeader.Deallocate fuel
            (disk.read (hdr.dataSectors.getD (NumDirect - 1) 0)) fm1 disk).bind
          (fun fm2 =>
            if fm2.Test (hdr.dataSectors.getD (NumDirect - 1) 0) then
              some (fm2.Clear (hdr.dataSectors.getD (NumDirect - 1) 0))
            else none))

/-- FileHeader::ByteToSector (filehdr.cc lines 175-184).  When the node
is indirected (numSectors > NumDirect-1) the source recurses on the
child with offset - (NumDirect-1)*SectorSize for every offset, so small
offsets reach the child with a negative offset and index the child's
array out of bounds (offset / SectorSize is negative); the model's
clamped getD stands in for that out-of-range C array read. -/
def FileHeader.ByteToSector : Nat → FileHeader → Disk → Int → Option Int
  | 0, _, _, _ => none
  | fuel + 1, hdr, disk, offset =>
    if hdr.numSectors ≤ (NumDirect : Int) - 1 then
      some (hdr.dataSectors.getD (offset / SectorSize).toNat 0)
    else
      FileHeader.ByteToSector fuel
        (disk.read (hdr.dataSectors.getD (NumDirect - 1) 0)) disk
        (offset - ((NumDirect : Int) - 1) * SectorSize)

/-- The sequence of data sectors of a header chain, in file order: the
traversal performed by FileHeader::Print (filehdr.cc lines 204-243),
which reads numSectors direct entries of a direct node, or the first
NumDirect-1 entries and then the chained child's.  Print only reads; it
returns no modified state. -/
def FileHeader.dataSectorList : Nat → FileHeader → Disk → Option (List Int)
  | 0, _, _ => none
  | fuel + 1, hdr, disk =>
    if hdr.numSectors ≤ (NumDirect : Int) - 1 then
      some (hdr.dataSectors.take hdr.numSectors.toNat)
    else
      (FileHeader.dataSectorList fuel
        (disk.read (hdr.dataSectors.getD (NumDirect - 1) 0)) disk).map
        (fun rest => hdr.dataSectors.take (NumDirect - 1) ++ rest)

/-- A 40-sector free map with every sector clear, used for concrete
test states. -/
def fm40 : BitMap := ⟨List.replicate 40 false⟩

/-- A one-sector free map with its only sector clear. -/
def fm1 : BitMap := ⟨[false]⟩

/-- A blank disk. -/
def disk0 : Disk := fun _ => FileHeader.empty

/-- A five-sector free map with every sector clear. -/
def fm5 : BitMap := ⟨List.replicate 5 false⟩

/-- A concrete node claiming 500 bytes over sectors 0-3, used as a
shrink test state. -/
def hdrShrink : FileHeader :=
  { numBytes := 500, numSectors := 4,
    dataSectors := (((((List.replicate 30 (0 : Int)).set 0 0).set 1 1).set 2 2).set 3 3) }

/-- A five-sector free map in which hdrShrink owns sectors 0-3; one
sector is clear so that the shrink passes the free-space check. -/
def fmShrink : BitMap := ⟨[true, true, true, true, false]⟩

/-- The result of Allocate(3713) on a fresh node against the 40-sector
free map: an indirect allocation consuming 29 direct sectors (0-28), one
child data sector (29), and one indirection sector (30). -/
def alloc3713 : Option (Bool × FileHeader × BitMap × Disk) :=
  FileHeader.Allocate 2 FileHeader.empty fm40 disk0 3713

/-- The spec's size/sector-count relation, written from the spec's own
words: sector_count = ceil(length_bytes / sector_size), stated over
nonnegative byte counts. -/
def specCeilSectors (bytes : Int) : Int :=
  ((bytes.toNat + 127) / 128 : Nat)

/-! ### Arithmetic facts about divRoundUp -/

/-- Characterization of divRoundUp for nonnegative sizes: it is the
least d with n ≤ SectorSize * d. -/
theorem divRoundUp_spec (n : Int) (h : 0 ≤ n) :
    n ≤ 128 * divRoundUp n SectorSize ∧
    128 * divRoundUp n SectorSize < n + 128 ∧
    0 ≤ divRoundUp n SectorSize := by
  unfold divRoundUp SectorSize
  rw [Int.tdiv_eq_ediv h (by norm_num), Int.tmod_eq_emod h (by norm_num)]
  split <;> omega

theorem divRoundUp_eq_spec (n : Int) (h : 0 ≤ n) :
    divRoundUp n SectorSize = specCeilSectors n := by
  have hs := divRoundUp_spec n h
  unfold specCeilSectors
  omega

theorem divRoundUp_mono {m n : Int} (hm : 0 ≤ m) (hmn : m ≤ n) :
    divRoundUp m SectorSize ≤ divRoundUp n SectorSize := by
  have h1 := divRoundUp_spec m hm
  have h2 := divRoundUp_spec n (le_trans hm hmn)
  omega

theorem divRoundUp_le29 {n : Int} (h : 0 ≤ n) :
    divRoundUp n SectorSize ≤ 29 ↔ n ≤ 3712 := by
  have hs := divRoundUp_spec n h
  omega

theorem divRoundUp_le30 {n : Int} (h : 0 ≤ n) :
    divRoundUp n SectorSize ≤ 30 ↔ n ≤ 3840 := by
  have hs := divRoundUp_spec n h
  omega

theorem divRoundUp_sub {n : Int} (h : 3712 < n) :
    divRoundUp (n - 3712) SectorSize = divRoundUp n SectorSize - 29 := by
  have h1 := divRoundUp_spec n (by omega)
  have h2 := divRoundUp_spec (n - 3712) (by omega)
  omega

theorem divRoundUp_eq30 {n : Int} (h1 : 3712 < n) (h2 : n ≤ 3840) :
    divRoundUp n SectorSize = 30 := by
  have hs := divRoundUp_spec n (by omega)
  omega

theorem divRoundUp_eq1 {n : Int} (h1 : 0 < n) (h2 : n ≤ 128) :
    divRoundUp n SectorSize = 1 := by
  have hs := divRoundUp_spec n (by omega)
  omega

/-! ### List index helper lemmas -/

theorem aux_getD_set_self {l : List Int} {i : Nat} {x d : Int}
    (h : i < l.length) : (l.set i x).getD i d = x := by
  simp [List.getD_eq_getElem?_getD, List.getElem?_set_self, h]

theorem aux_getD_set_ne {l : List Int} {i j : Nat} {x d : Int}
    (h : i ≠ j) : (l.set i x).getD j d = l.getD j d := by
  simp [List.getD_eq_getElem?_getD, List.getElem?_set_ne h]

theorem aux_getD_take {l : List Int} {k j : Nat} {d : Int}
    (h : j < k) : (l.take k).getD j d = l.getD j d := by
  simp [List.getD_eq_getElem?_getD, List.getElem?_take, h]

theorem aux_getD_bool_set_self {l : List Bool} {i : Nat} {x d : Bool}
    (h : i < l.length) : (l.set i x).getD i d = x := by
  simp [List.getD_eq_getElem?_getD, List.getElem?_set_self, h]

theorem aux_getD_bool_set_ne {l : List Bool} {i j : Nat} {x d : Bool}
    (h : i ≠ j) : (l.set i x).getD j d = l.getD j d := by
  simp [List.getD_eq_getElem?_getD, List.getElem?_set_ne h]

theorem aux_getD_true_lt {l : List Bool} {i : Nat}
    (h : l.getD i false = true) : i < l.length := by
  by_contra hc
  rw [List.getD_eq_getElem?_getD, List.getElem?_eq_none (by omega)] at h
  simp at h

/-! ### Counting clear bits under set operations -/

theorem aux_countP_set_false :
    ∀ (l : List Bool) (i : Nat), l.getD i false = true →
      (l.set i false).countP (fun b => !b) = l.countP (fun b => !b) + 1 := by
  intro l
  induction l with
  | nil => intro i h; simp [List.getD] at h
  | cons b rest ih =>
    intro i h
    cases i with
    | zero =>
      have hb : b = true := by simpa [List.getD] using h
      subst hb
      simp [List.countP_cons]
    | succ j =>
      rw [List.getD_cons_succ] at h
      have hr := ih j h
      simp only [List.set, List.countP_cons, hr]
      split <;> omega

theorem aux_countP_set_true :
    ∀ (l : List Bool) (i : Nat), l.getD i false = false → i < l.length →
      (l.set i true).countP (fun b => !b) + 1 = l.countP (fun b => !b) := by
  intro l
  induction l with
  | nil => intro i _ h; simp at h
  | cons b rest ih =>
    intro i h hlen
    cases i with
    | zero =>
      have hb : b = false := by simpa [List.getD] using h
      subst hb
      simp [List.countP_cons]
    | succ j =>
      rw [List.getD_cons_succ] at h
      simp only [List.length_cons] at hlen
      have hr := ih j h (by omega)
      simp only [List.set, List.countP_cons]
      omega

/-! ### Facts about findClearIdx and the BitMap operations -/

theorem findClearIdx_spec :
    ∀ l : List Bool, 0 < l.countP (fun b => !b) →
      ∃ j, findClearIdx l = some j ∧ j < l.length ∧ l.getD j false = false := by
  intro l
  induction l with
  | nil => intro h; simp at h
  | cons b rest ih =>
    intro h
    cases hb : b with
    | false =>
      refine ⟨0, ?_, ?_, ?_⟩ <;> simp [findClearIdx, List.getD]
    | true =>
      subst hb
      have hcc : (true :: rest).countP (fun b => !b) = rest.countP (fun b => !b) := by
        simp [List.countP_cons]
      rw [hcc] at h
      obtain ⟨j, hj1, hj2, hj3⟩ := ih h
      refine ⟨j + 1, ?_, ?_, ?_⟩
      · simp [findClearIdx, hj1]
      · simp only [List.length_cons]; omega
      · rw [List.getD_cons_succ]; exact hj3

theorem findClearIdx_none :
    ∀ l : List Bool, l.countP (fun b => !b) = 0 → findClearIdx l = none := by
  intro l
  induction l with
  | nil => intro _; rfl
  | cons b rest ih =>
    intro h
    cases hb : b with
    | false =>
      subst hb
      have hcc : (false :: rest).countP (fun b => !b)
          = rest.countP (fun b => !b) + 1 := by
        simp [List.countP_cons]
      omega
    | true =>
      subst hb
      have hcc : (true :: rest).countP (fun b => !b) = rest.countP (fun b => !b) := by
        simp [List.countP_cons]
      rw [hcc] at h
      simp [findClearIdx, ih h]

theorem find_eq_of_idx {bm : BitMap} {j : Nat} (h : findClearIdx bm.bits = some j) :
    bm.find = ((j : Int), ⟨bm.bits.set j true⟩) := by
  unfold BitMap.find
  rw [h]

theorem find_spec {bm : BitMap} (h : 0 < bm.NumClear) :
    0 ≤ (bm.find).1 ∧
    bm.Test (bm.find).1 = false ∧
    (bm.find).2.Test (bm.find).1 = true ∧
    (bm.find).2.NumClear = bm.NumClear - 1 ∧
    (bm.find).2.bits.length = bm.bits.length := by
  have h0 : 0 < bm.bits.countP (fun b => !b) := by
    unfold BitMap.NumClear at h
    exact_mod_cast h
  obtain ⟨j, hj1, hj2, hj3⟩ := findClearIdx_spec bm.bits h0
  rw [find_eq_of_idx hj1]
  have htn : ((j : Int)).toNat = j := by omega
  refine ⟨by positivity, ?_, ?_, ?_, by simp⟩
  · show (decide ((0 : Int) ≤ (j : Int)) && bm.bits.getD ((j : Int)).toNat false) = false
    rw [htn, hj3, Bool.and_false]
  · show (decide ((0 : Int) ≤ (j : Int)) && (bm.bits.set j true).getD ((j : Int)).toNat false) = true
    rw [htn, aux_getD_bool_set_self hj2, Bool.and_true, decide_eq_true_eq]
    positivity
  · show ((((bm.bits.set j true).countP (fun b => !b) : Nat)) : Int) = bm.NumClear - 1
    have := aux_countP_set_true bm.bits j hj3 hj2
    unfold BitMap.NumClear
    omega

theorem find_marked_mono {bm : BitMap} {t : Int} (h : bm.Test t = true) :
    (bm.find).2.Test t = true := by
  unfold BitMap.find
  cases hf : findClearIdx bm.bits with
  | none => exact h
  | some j =>
    simp only [BitMap.Test, Bool.and_eq_true, decide_eq_true_eq] at h
    show (decide (0 ≤ t) && (bm.bits.set j true).getD t.toNat false) = true
    rw [decide_eq_true h.1, Bool.true_and]
    by_cases hij : j = t.toNat
    · have hlt : j < bm.bits.length := by rw [hij]; exact aux_getD_true_lt h.2
      rw [← hij, aux_getD_bool_set_self hlt]
    · rw [aux_getD_bool_set_ne hij]
      exact h.2

theorem find_NumClear_le (bm : BitMap) : (bm.find).2.NumClear ≤ bm.NumClear := by
  rcases Nat.eq_zero_or_pos (bm.bits.countP (fun b => !b)) with h | h
  · unfold BitMap.find
    rw [findClearIdx_none bm.bits h]
  · have hpos : 0 < bm.NumClear := by
      unfold BitMap.NumClear
      exact_mod_cast h
    have := (find_spec hpos).2.2.2.1
    omega

theorem clear_NumClear {bm : BitMap} {s : Int} (h : bm.Test s = true) :
    (bm.Clear s).NumClear = bm.NumClear + 1 := by
  simp only [BitMap.Test, Bool.and_eq_true, decide_eq_true_eq] at h
  obtain ⟨h0, hbit⟩ := h
  unfold BitMap.Clear
  rw [if_pos h0]
  show ((((bm.bits.set s.toNat false).countP (fun b => !b) : Nat)) : Int) = bm.NumClear + 1
  have := aux_countP_set_false bm.bits s.toNat hbit
  unfold BitMap.NumClear
  omega

theorem clear_Test_ne {bm : BitMap} {s t : Int} (hs : 0 ≤ s) (hne : t ≠ s) :
    (bm.Clear s).Test t = bm.Test t := by
  unfold BitMap.Clear
  rw [if_pos hs]
  show (decide (0 ≤ t) && (bm.bits.set s.toNat false).getD t.toNat false)
      = (decide (0 ≤ t) && bm.bits.getD t.toNat false)
  by_cases ht : 0 ≤ t
  · have hij : s.toNat ≠ t.toNat := by omega
    rw [aux_getD_bool_set_ne hij]
  · rw [decide_eq_false ht]
    simp

/-! ### Facts about the allocation and deallocation loops -/

theorem claimLoop_len :
    ∀ (k : Nat) (ds : List Int) (fm : BitMap) (i : Nat),
      (claimLoop ds fm i k).1.length = ds.length ∧
      (claimLoop ds fm i k).2.bits.length = fm.bits.length := by
  intro k
  induction k with
  | zero => intro ds fm i; exact ⟨rfl, rfl⟩
  | succ m ih =>
    intro ds fm i
    have hstep : claimLoop ds fm i (m + 1)
        = claimLoop (ds.set i (fm.find).1) (fm.find).2 (i + 1) m := rfl
    rw [hstep]
    obtain ⟨h1, h2⟩ := ih (ds.set i (fm.find).1) (fm.find).2 (i + 1)
    refine ⟨?_, ?_⟩
    · rw [h1, List.length_set]
    · rw [h2]
      unfold BitMap.find
      cases hf : findClearIdx fm.bits <;> simp

theorem claimLoop_fm_congr :
    ∀ (k : Nat) (fm : BitMap) (ds ds2 : List Int) (i i2 : Nat),
      (claimLoop ds fm i k).2 = (claimLoop ds2 fm i2 k).2 := by
  intro k
  induction k with
  | zero => intro fm ds ds2 i i2; rfl
  | succ m ih =>
    intro fm ds ds2 i i2
    exact ih (fm.find).2 (ds.set i (fm.find).1) (ds2.set i2 (fm.find).1) (i + 1) (i2 + 1)

theorem claimLoop_getD_lt :
    ∀ (k : Nat) (ds : List Int) (fm : BitMap) (i j : Nat) (d : Int), j < i →
      (claimLoop ds fm i k).1.getD j d = ds.getD j d := by
  intro k
  induction k with
  | zero => intro ds fm i j d _; rfl
  | succ m ih =>
    intro ds fm i j d hj
    show (claimLoop (ds.set i (fm.find).1) (fm.find).2 (i + 1) m).1.getD j d = ds.getD j d
    rw [ih _ _ (i + 1) j d (by omega)]
    exact aux_getD_set_ne (by omega)

theorem claimLoop_marked_mono :
    ∀ (k : Nat) (ds : List Int) (fm : BitMap) (i : Nat) (t : Int),
      fm.Test t = true → (claimLoop ds fm i k).2.Test t = true := by
  intro k
  induction k with
  | zero => intro ds fm i t h; exact h
  | succ m ih =>
    intro ds fm i t h
    exact ih _ _ (i + 1) t (find_marked_mono h)

theorem claimLoop_NumClear_le :
    ∀ (k : Nat) (ds : List Int) (fm : BitMap) (i : Nat),
      (claimLoop ds fm i k).2.NumClear ≤ fm.NumClear := by
  intro k
  induction k with
  | zero => intro ds fm i; exact le_rfl
  | succ m ih =>
    intro ds fm i
    calc (claimLoop (ds.set i (fm.find).1) (fm.find).2 (i + 1) m).2.NumClear
        ≤ (fm.find).2.NumClear := ih _ _ (i + 1)
      _ ≤ fm.NumClear := find_NumClear_le fm

/-- Main properties of the allocation loop when enough sectors are clear:
the free-sector count drops by exactly the number of claimed sectors, and
the claimed sector numbers (stored at positions i..i+k of the table) are
nonnegative, previously clear, pairwise distinct, and marked afterwards. -/
theorem claimLoop_main :
    ∀ (k : Nat) (ds : List Int) (fm : BitMap) (i : Nat),
      (k : Int) ≤ fm.NumClear → i + k ≤ ds.length →
      (claimLoop ds fm i k).2.NumClear = fm.NumClear - k ∧
      (∀ j, j < k →
        0 ≤ (claimLoop ds fm i k).1.getD (i + j) 0 ∧
        fm.Test ((claimLoop ds fm i k).1.getD (i + j) 0) = false ∧
        (claimLoop ds fm i k).2.Test ((claimLoop ds fm i k).1.getD (i + j) 0) = true) ∧
      (∀ j j2, j < j2 → j2 < k →
        (claimLoop ds fm i k).1.getD (i + j) 0 ≠
        (claimLoop ds fm i k).1.getD (i + j2) 0) := by
  intro k
  induction k with
  | zero =>
    intro ds fm i _ _
    refine ⟨?_, fun j hj => absurd hj (by omega), fun j j2 h1 h2 => absurd h2 (by omega)⟩
    show fm.NumClear = fm.NumClear - ((0 : Nat) : Int)
    simp
  | succ m ih =>
    intro ds fm i hclear hlen
    have hpos : 0 < fm.NumClear := by omega
    obtain ⟨hf0, hfT0, hfT1, hfN, hfL⟩ := find_spec hpos
    have hstep : claimLoop ds fm i (m + 1)
        = claimLoop (ds.set i (fm.find).1) (fm.find).2 (i + 1) m := rfl
    have hlen2 : (i + 1) + m ≤ (ds.set i (fm.find).1).length := by
      rw [List.length_set]; omega
    obtain ⟨ihN, ihC, ihD⟩ := ih (ds.set i (fm.find).1) (fm.find).2 (i + 1)
      (by omega) hlen2
    have hilt : i < ds.length := by omega
    have hpos0 : (claimLoop ds fm i (m + 1)).1.getD i 0 = (fm.find).1 := by
      rw [hstep, claimLoop_getD_lt m _ _ (i + 1) i 0 (by omega)]
      exact aux_getD_set_self hilt
    refine ⟨by rw [hstep]; omega, ?_, ?_⟩
    · intro j hj
      cases j with
      | zero =>
        rw [show i + 0 = i from rfl, hpos0]
        refine ⟨hf0, hfT0, ?_⟩
        rw [hstep]
        exact claimLoop_marked_mono m _ _ (i + 1) _ hfT1
      | succ j0 =>
        have hq := ihC j0 (by omega)
        rw [show i + (j0 + 1) = (i + 1) + j0 from by omega, hstep]
        refine ⟨hq.1, ?_, hq.2.2⟩
        cases hT : fm.Test ((claimLoop (ds.set i (fm.find).1) (fm.find).2 (i + 1) m).1.getD (i + 1 + j0) 0) with
        | false => rfl
        | true => rw [find_marked_mono hT] at hq; exact absurd hq.2.1 (by simp)
    · intro j j2 hjj hj2
      cases j with
      | zero =>
        cases j2 with
        | zero => omega
        | succ j20 =>
          rw [show i + 0 = i from rfl, hpos0,
              show i + (j20 + 1) = (i + 1) + j20 from by omega, hstep]
          have hq := ihC j20 (by omega)
          intro hc
          rw [← hc] at hq
          exact Bool.noConfusion (hfT1.symm.trans hq.2.1)
      | succ j0 =>
        cases j2 with
        | zero => omega
        | succ j20 =>
          rw [show i + (j0 + 1) = (i + 1) + j0 from by omega,
              show i + (j20 + 1) = (i + 1) + j20 from by omega, hstep]
          exact ihD j0 j20 (by omega) (by omega)

theorem clearLoop_restore :
    ∀ (k : Nat) (fm : BitMap) (ds : List Int) (i : Nat),
      (∀ j, j < k → 0 ≤ ds.getD (i + j) 0 ∧ fm.Test (ds.getD (i + j) 0) = true) →
      (∀ j j2, j < j2 → j2 < k → ds.getD (i + j) 0 ≠ ds.getD (i + j2) 0) →
      ∃ fm2, clearLoop fm ds i k = some fm2 ∧
        fm2.NumClear = fm.NumClear + k := by
  intro k
  induction k with
  | zero =>
    intro fm ds i _ _
    exact ⟨fm, rfl, by simp⟩
  | succ m ih =>
    intro fm ds i hok hdist
    have h0 := hok 0 (by omega)
    rw [show i + 0 = i from rfl] at h0
    have hstep : clearLoop fm ds i (m + 1)
        = if fm.Test (ds.getD i 0) then
            clearLoop (fm.Clear (ds.getD i 0)) ds (i + 1) m
          else none := rfl
    rw [hstep, if_pos h0.2]
    have hok2 : ∀ j, j < m → 0 ≤ ds.getD (i + 1 + j) 0 ∧
        (fm.Clear (ds.getD i 0)).Test (ds.getD (i + 1 + j) 0) = true := by
      intro j hj
      have hj2 := hok (j + 1) (by omega)
      rw [show i + (j + 1) = i + 1 + j from by omega] at hj2
      have hne : ds.getD (i + 1 + j) 0 ≠ ds.getD i 0 := by
        have := hdist 0 (j + 1) (by omega) (by omega)
        rw [show i + 0 = i from rfl,
            show i + (j + 1) = i + 1 + j from by omega] at this
        exact fun hc => this hc.symm
      exact ⟨hj2.1, by rw [clear_Test_ne h0.1 hne]; exact hj2.2⟩
    have hdist2 : ∀ j j2, j < j2 → j2 < m →
        ds.getD (i + 1 + j) 0 ≠ ds.getD (i + 1 + j2) 0 := by
      intro j j2 hjj hj2
      have := hdist (j + 1) (j2 + 1) (by omega) (by omega)
      rw [show i + (j + 1) = i + 1 + j from by omega,
          show i + (j2 + 1) = i + 1 + j2 from by omega] at this
      exact this
    obtain ⟨fm2, hc1, hc2⟩ := ih (fm.Clear (ds.getD i 0)) ds (i + 1) hok2 hdist2
    refine ⟨fm2, hc1, ?_⟩
    rw [hc2, clear_NumClear h0.2]
    omega

/-! ### Literal values of the modelled constants -/

theorem MaxFileSize_eq : MaxFileSize = 3840 := by
  norm_num [MaxFileSize, NumDirect, SectorSize]

theorem directCap_eq : ((NumDirect : Int) - 1) * SectorSize = 3712 := by
  norm_num [NumDirect, SectorSize]

/-! ### Shape of Allocate in the purely direct regime -/

theorem alloc_direct_shape (f : Nat) (hdr : FileHeader) (fm : BitMap)
    (disk : Disk) (n : Int) (h0 : 0 ≤ n) (h1 : n ≤ 3712)
    (h2 : divRoundUp n SectorSize ≤ fm.NumClear) :
    FileHeader.Allocate (f + 1) hdr fm disk n = some (true,
      { numBytes := n, numSectors := divRoundUp n SectorSize,
        dataSectors := (claimLoop hdr.dataSectors fm 0 (divRoundUp n SectorSize).toNat).1 },
      (claimLoop hdr.dataSectors fm 0 (divRoundUp n SectorSize).toNat).2, disk) := by
  simp only [FileHeader.Allocate, MaxFileSize_eq, directCap_eq]
  rw [if_neg (by omega), if_neg (by omega), if_neg (by omega)]

theorem NumDirect_sub_one : NumDirect - 1 = 29 := rfl

theorem claimLoop_count :
    ∀ (k : Nat) (ds : List Int) (fm : BitMap) (i : Nat),
      (k : Int) ≤ fm.NumClear →
      (claimLoop ds fm i k).2.NumClear = fm.NumClear - k := by
  intro k
  induction k with
  | zero =>
    intro ds fm i _
    show fm.NumClear = fm.NumClear - ((0 : Nat) : Int)
    simp
  | succ m ih =>
    intro ds fm i h
    have hpos : 0 < fm.NumClear := by omega
    have hfN := (find_spec hpos).2.2.2.1
    have hstep : claimLoop ds fm i (m + 1)
        = claimLoop (ds.set i (fm.find).1) (fm.find).2 (i + 1) m := rfl
    rw [hstep, ih _ _ (i + 1) (by omega), hfN]
    omega

/-! ### One-step unfolding of Allocate -/

theorem alloc_unfold (fuel : Nat) (hdr : FileHeader) (freeMap : BitMap)
    (disk : Disk) (fileSize : Int) :
    FileHeader.Allocate (fuel + 1) hdr freeMap disk fileSize =
    if fileSize > MaxFileSize then some (false, hdr, freeMap, disk)
    else if freeMap.NumClear < divRoundUp fileSize SectorSize then
      some (false,
        { hdr with numBytes := fileSize,
                   numSectors := divRoundUp fileSize SectorSize },
        freeMap, disk)
    else if fileSize > ((NumDirect : Int) - 1) * SectorSize then
      (FileHeader.Allocate fuel FileHeader.empty
          (claimLoop hdr.dataSectors freeMap 0 (NumDirect - 1)).2 disk
          (fileSize - ((NumDirect : Int) - 1) * SectorSize)).bind (fun r =>
        if r.1 = false then
          some (false,
            { hdr with numBytes := fileSize,
                       numSectors := divRoundUp fileSize SectorSize,
                       dataSectors :=
                         (claimLoop hdr.dataSectors freeMap 0 (NumDirect - 1)).1 },
            r.2.2.1, r.2.2.2)
        else
          some (true,
            { hdr with numBytes := fileSize,
                       numSectors := divRoundUp fileSize SectorSize,
                       dataSectors :=
                         (claimLoop hdr.dataSectors freeMap 0 (NumDirect - 1)).1.set
                           (NumDirect - 1) (((r.2.2.1).find).1) },
            ((r.2.2.1).find).2,
            (r.2.2.2).write (((r.2.2.1).find).1) r.2.1))
    else
      some (true,
        { hdr with numBytes := fileSize,
                   numSectors := divRoundUp fileSize SectorSize,
                   dataSectors :=
                     (claimLoop hdr.dataSectors freeMap 0
                       (divRoundUp fileSize SectorSize).toNat).1 },
        (claimLoop hdr.dataSectors freeMap 0
          (divRoundUp fileSize SectorSize).toNat).2,
        disk) := rfl

/-! ### Shape of Allocate in the indirect regime (3712 < n <= 3840) -/

set_option maxHeartbeats 1000000 in
theorem alloc_indirect_shape (f : Nat) (hdr : FileHeader) (fm : BitMap)
    (disk : Disk) (n : Int) (h1 : 3712 < n) (h2 : n ≤ 3840)
    (h3 : 30 ≤ fm.NumClear) :
    FileHeader.Allocate (f + 2) hdr fm disk n = some (true,
      { numBytes := n, numSectors := 30,
        dataSectors := (claimLoop hdr.dataSectors fm 0 29).1.set 29
          (((claimLoop FileHeader.empty.dataSectors
              (claimLoop hdr.dataSectors fm 0 29).2 0 1).2.find).1) },
      ((claimLoop FileHeader.empty.dataSectors
          (claimLoop hdr.dataSectors fm 0 29).2 0 1).2.find).2,
      disk.write
        (((claimLoop FileHeader.empty.dataSectors
            (claimLoop hdr.dataSectors fm 0 29).2 0 1).2.find).1)
        { numBytes := n - 3712, numSectors := 1,
          dataSectors := (claimLoop FileHeader.empty.dataSectors
            (claimLoop hdr.dataSectors fm 0 29).2 0 1).1 }) := by
  have hdn : divRoundUp n SectorSize = 30 := divRoundUp_eq30 h1 h2
  have hchild : divRoundUp (n - 3712) SectorSize = 1 := by
    rw [divRoundUp_sub h1, hdn]; omega
  have hinner : (claimLoop hdr.dataSectors fm 0 29).2.NumClear = fm.NumClear - 29 :=
    claimLoop_count 29 _ fm 0 (by omega)
  show FileHeader.Allocate (f + 1 + 1) hdr fm disk n = _
  rw [alloc_unfold, if_neg (by rw [MaxFileSize_eq]; omega), hdn,
    if_neg (by omega), if_pos (by rw [directCap_eq]; omega)]
  rw [show ((NumDirect : Int) - 1) * SectorSize = 3712 from directCap_eq,
    show NumDirect - 1 = 29 from rfl]
  rw [alloc_direct_shape f FileHeader.empty _ disk (n - 3712) (by omega) (by omega)
    (by rw [hchild, hinner]; omega)]
  rw [Option.some_bind]
  rw [if_neg (by simp)]
  simp only [hchild]
  rfl

/-! ### One-step unfolding and shapes of Extend -/

theorem ext_unfold (fuel : Nat) (hdr : FileHeader) (freeMap : BitMap)
    (disk : Disk) (fileSize : Int) :
    FileHeader.Extend (fuel + 1) hdr freeMap disk fileSize =
    if divRoundUp fileSize SectorSize > MaxFileSize then
      some (false, hdr, freeMap, disk)
    else if freeMap.NumClear < divRoundUp fileSize SectorSize then
      some (false, hdr, freeMap, disk)
    else if fileSize > ((NumDirect : Int) - 1) * SectorSize then
      if hdr.numBytes ≤ ((NumDirect : Int) - 1) * SectorSize then
        (FileHeader.Allocate fuel FileHeader.empty
            (claimLoop hdr.dataSectors freeMap hdr.numSectors.toNat
              (((NumDirect : Int) - 1) - hdr.numSectors).toNat).2 disk
            (fileSize - ((NumDirect : Int) - 1) * SectorSize)).bind (fun r =>
          some (true,
            { numBytes := fileSize, numSectors := divRoundUp fileSize SectorSize,
              dataSectors :=
                (claimLoop hdr.dataSectors freeMap hdr.numSectors.toNat
                  (((NumDirect : Int) - 1) - hdr.numSectors).toNat).1.set
                  (NumDirect - 1) (((r.2.2.1).find).1) },
            ((r.2.2.1).find).2,
            (r.2.2.2).write (((r.2.2.1).find).1) r.2.1))
      else
        (FileHeader.Extend fuel
            (disk.read (hdr.dataSectors.getD (NumDirect - 1) 0)) freeMap disk
            (fileSize - ((NumDirect : Int) - 1) * SectorSize)).bind (fun r =>
          if r.1 = false then some (false, hdr, r.2.2.1, r.2.2.2)
          else
            some (true,
              { hdr with numBytes := fileSize,
                         numSectors := divRoundUp fileSize SectorSize },
              r.2.2.1,
              (r.2.2.2).write (hdr.dataSectors.getD (NumDirect - 1) 0) r.2.1))
    else
      some (true,
        { numBytes := fileSize, numSectors := divRoundUp fileSize SectorSize,
          dataSectors :=
            (claimLoop hdr.dataSectors freeMap hdr.numSectors.toNat
              (divRoundUp fileSize SectorSize - hdr.numSectors).toNat).1 },
        (claimLoop hdr.dataSectors freeMap hdr.numSectors.toNat
          (divRoundUp fileSize SectorSize - hdr.numSectors).toNat).2,
        disk) := rfl

theorem ext_direct_shape (f : Nat) (hdr : FileHeader) (fm : BitMap)
    (disk : Disk) (n : Int) (h0 : 0 ≤ n) (h1 : n ≤ 3712)
    (h2 : divRoundUp n SectorSize ≤ fm.NumClear) :
    FileHeader.Extend (f + 1) hdr fm disk n = some (true,
      { numBytes := n, numSectors := divRoundUp n SectorSize,
        dataSectors := (claimLoop hdr.dataSectors fm hdr.numSectors.toNat
          (divRoundUp n SectorSize - hdr.numSectors).toNat).1 },
      (claimLoop hdr.dataSectors fm hdr.numSectors.toNat
        (divRoundUp n SectorSize - hdr.numSectors).toNat).2,
      disk) := by
  have hs := divRoundUp_spec n h0
  rw [ext_unfold, if_neg (by rw [MaxFileSize_eq]; omega), if_neg (by omega),
    if_neg (by rw [directCap_eq]; omega)]

theorem NumDirect_int_sub : (NumDirect : Int) - 1 = 29 := by
  norm_num [NumDirect]

set_option maxHeartbeats 1000000 in
theorem ext_cross_shape (f : Nat) (hdr : FileHeader) (fm : BitMap)
    (disk : Disk) (n : Int) (h1 : 3712 < n) (h2 : n ≤ 3840)
    (h3 : 30 ≤ fm.NumClear) (h4 : hdr.numBytes ≤ 3712)
    (h5 : 0 ≤ hdr.numSectors) :
    FileHeader.Extend (f + 2) hdr fm disk n = some (true,
      { numBytes := n, numSectors := 30,
        dataSectors := (claimLoop hdr.dataSectors fm hdr.numSectors.toNat
            ((29 - hdr.numSectors).toNat)).1.set 29
          (((claimLoop FileHeader.empty.dataSectors
              (claimLoop hdr.dataSectors fm hdr.numSectors.toNat
                ((29 - hdr.numSectors).toNat)).2 0 1).2.find).1) },
      ((claimLoop FileHeader.empty.dataSectors
          (claimLoop hdr.dataSectors fm hdr.numSectors.toNat
            ((29 - hdr.numSectors).toNat)).2 0 1).2.find).2,
      disk.write
        (((claimLoop FileHeader.empty.dataSectors
            (claimLoop hdr.dataSectors fm hdr.numSectors.toNat
              ((29 - hdr.numSectors).toNat)).2 0 1).2.find).1)
        { numBytes := n - 3712, numSectors := 1,
          dataSectors := (claimLoop FileHeader.empty.dataSectors
            (claimLoop hdr.dataSectors fm hdr.numSectors.toNat
              ((29 - hdr.numSectors).toNat)).2 0 1).1 }) := by
  have hdn : divRoundUp n SectorSize = 30 := divRoundUp_eq30 h1 h2
  have hchild : divRoundUp (n - 3712) SectorSize = 1 := by
    rw [divRoundUp_sub h1, hdn]; omega
  have hcount : ((29 - hdr.numSectors).toNat : Int) ≤ 29 := by omega
  have hinner : (claimLoop hdr.dataSectors fm hdr.numSectors.toNat
      ((29 - hdr.numSectors).toNat)).2.NumClear
      = fm.NumClear - ((29 - hdr.numSectors).toNat : Int) :=
    claimLoop_count _ _ fm _ (by omega)
  show FileHeader.Extend (f + 1 + 1) hdr fm disk n = _
  rw [ext_unfold, hdn, if_neg (by rw [MaxFileSize_eq]; omega), if_neg (by omega),
    if_pos (by rw [directCap_eq]; omega), if_pos (by rw [directCap_eq]; omega),
    show ((NumDirect : Int) - 1) * SectorSize = 3712 from directCap_eq,
    NumDirect_int_sub,
    show NumDirect - 1 = 29 from rfl]
  rw [alloc_direct_shape f FileHeader.empty _ disk (n - 3712) (by omega) (by omega)
    (by rw [hchild, hinner]; omega)]
  rw [Option.some_bind]
  simp only [hchild]
  rfl

set_option maxHeartbeats 1000000 in
theorem ext_chain_shape (f : Nat) (hdr : FileHeader) (fm : BitMap)
    (disk : Disk) (n : Int) (c2 : FileHeader) (fm2 : BitMap) (d2 : Disk)
    (h1 : 3712 < n) (h2 : divRoundUp n SectorSize ≤ MaxFileSize)
    (h3 : divRoundUp n SectorSize ≤ fm.NumClear) (h4 : 3712 < hdr.numBytes)
    (hrec : FileHeader.Extend (f + 1)
        (disk.read (hdr.dataSectors.getD 29 0)) fm disk (n - 3712)
        = some (true, c2, fm2, d2)) :
    FileHeader.Extend (f + 2) hdr fm disk n = some (true,
      { hdr with numBytes := n, numSectors := divRoundUp n SectorSize },
      fm2, d2.write (hdr.dataSectors.getD 29 0) c2) := by
  show FileHeader.Extend (f + 1 + 1) hdr fm disk n = _
  rw [ext_unfold, if_neg (by omega), if_neg (by omega),
    if_pos (by rw [directCap_eq]; omega), if_neg (by rw [directCap_eq]; omega),
    show ((NumDirect : Int) - 1) * SectorSize = 3712 from directCap_eq,
    show NumDirect - 1 = 29 from rfl, hrec]
  rfl

/-! ### One-step unfolding of the other operations -/

theorem dealloc_unfold (fuel : Nat) (hdr : FileHeader) (freeMap : BitMap)
    (disk : Disk) :
    FileHeader.Deallocate (fuel + 1) hdr freeMap disk =
    if hdr.numSectors ≤ (NumDirect : Int) then
      clearLoop freeMap hdr.dataSectors 0 hdr.numSectors.toNat
    else
      (clearLoop freeMap hdr.dataSectors 0 (NumDirect - 1)).bind (fun fm1 =>
        (FileHeader.Deallocate fuel
            (disk.read (hdr.dataSectors.getD (NumDirect - 1) 0)) fm1 disk).bind
          (fun fm2 =>
            if fm2.Test (hdr.dataSectors.getD (NumDirect - 1) 0) then
              some (fm2.Clear (hdr.dataSectors.getD (NumDirect - 1) 0))
            else none)) := rfl

theorem b2s_unfold (fuel : Nat) (hdr : FileHeader) (disk : Disk) (offset : Int) :
    FileHeader.ByteToSector (fuel + 1) hdr disk offset =
    if hdr.numSectors ≤ (NumDirect : Int) - 1 then
      some (hdr.dataSectors.getD (offset / SectorSize).toNat 0)
    else
      FileHeader.ByteToSector fuel
        (disk.read (hdr.dataSectors.getD (NumDirect - 1) 0)) disk
        (offset - ((NumDirect : Int) - 1) * SectorSize) := rfl

theorem dsl_unfold (fuel : Nat) (hdr : FileHeader) (disk : Disk) :
    FileHeader.dataSectorList (fuel + 1) hdr disk =
    if hdr.numSectors ≤ (NumDirect : Int) - 1 then
      some (hdr.dataSectors.take hdr.numSectors.toNat)
    else
      (FileHeader.dataSectorList fuel
        (disk.read (hdr.dataSectors.getD (NumDirect - 1) 0)) disk).map
        (fun rest => hdr.dataSectors.take (NumDirect - 1) ++ rest) := rfl

/-! ### Failure shapes of Allocate and Extend -/

theorem alloc_fail_max (f : Nat) (hdr : FileHeader) (fm : BitMap)
    (disk : Disk) (n : Int) (h : n > MaxFileSize) :
    FileHeader.Allocate (f + 1) hdr fm disk n = some (false, hdr, fm, disk) := by
  rw [alloc_unfold, if_pos h]

theorem alloc_fail_space (f : Nat) (hdr : FileHeader) (fm : BitMap)
    (disk : Disk) (n : Int) (h1 : ¬ n > MaxFileSize)
    (h2 : fm.NumClear < divRoundUp n SectorSize) :
    FileHeader.Allocate (f + 1) hdr fm disk n = some (false,
      { hdr with numBytes := n, numSectors := divRoundUp n SectorSize },
      fm, disk) := by
  rw [alloc_unfold, if_neg h1, if_pos h2]

theorem ext_fail_max (f : Nat) (hdr : FileHeader) (fm : BitMap)
    (disk : Disk) (n : Int) (h : divRoundUp n SectorSize > MaxFileSize) :
    FileHeader.Extend (f + 1) hdr fm disk n = some (false, hdr, fm, disk) := by
  rw [ext_unfold, if_pos h]

theorem ext_fail_space (f : Nat) (hdr : FileHeader) (fm : BitMap)
    (disk : Disk) (n : Int) (h1 : ¬ divRoundUp n SectorSize > MaxFileSize)
    (h2 : fm.NumClear < divRoundUp n SectorSize) :
    FileHeader.Extend (f + 1) hdr fm disk n = some (false, hdr, fm, disk) := by
  rw [ext_unfold, if_neg h1, if_pos h2]

/-! ### Totality of Allocate with fuel at least 2 -/

theorem alloc_isSome (f : Nat) (hdr : FileHeader) (fm : BitMap)
    (disk : Disk) (n : Int) :
    ∃ r, FileHeader.Allocate (f + 2) hdr fm disk n = some r := by
  by_cases h1 : n > MaxFileSize
  · exact ⟨_, alloc_fail_max (f + 1) hdr fm disk n h1⟩
  by_cases h2 : fm.NumClear < divRoundUp n SectorSize
  · exact ⟨_, alloc_fail_space (f + 1) hdr fm disk n h1 h2⟩
  by_cases h3 : n ≤ 3712
  · have h0 : 0 ≤ n ∨ n < 0 := by omega
    rcases h0 with h0 | h0
    · exact ⟨_, alloc_direct_shape (f + 1) hdr fm disk n h0 h3 (by omega)⟩
    · -- negative sizes also take the direct branch
      show ∃ r, FileHeader.Allocate (f + 1 + 1) hdr fm disk n = some r
      rw [alloc_unfold, if_neg h1, if_neg h2,
        if_neg (by rw [directCap_eq]; omega)]
      exact ⟨_, rfl⟩
  · rw [MaxFileSize_eq] at h1
    exact ⟨_, alloc_indirect_shape f hdr fm disk n (by omega) (by omega)
      (by rw [divRoundUp_eq30 (by omega) (by omega)] at h2; omega)⟩

/-! ### Result value of Allocate -/

theorem alloc_false_iff (f : Nat) (hdr : FileHeader) (fm : BitMap)
    (disk : Disk) (n : Int) (r : Bool × FileHeader × BitMap × Disk)
    (hr : FileHeader.Allocate (f + 2) hdr fm disk n = some r) :
    r.1 = false ↔ (n > MaxFileSize ∨ fm.NumClear < divRoundUp n SectorSize) := by
  by_cases h1 : n > MaxFileSize
  · rw [alloc_fail_max (f + 1) hdr fm disk n h1] at hr
    cases hr
    simp [h1]
  by_cases h2 : fm.NumClear < divRoundUp n SectorSize
  · rw [alloc_fail_space (f + 1) hdr fm disk n h1 h2] at hr
    cases hr
    simp [h2]
  by_cases h3 : n ≤ 3712
  · rcases (by omega : 0 ≤ n ∨ n < 0) with h0 | h0
    · rw [alloc_direct_shape (f + 1) hdr fm disk n h0 h3 (by omega)] at hr
      cases hr
      exact iff_of_false (by simp) (by tauto)
    · rw [show FileHeader.Allocate (f + 2) hdr fm disk n
          = FileHeader.Allocate (f + 1 + 1) hdr fm disk n from rfl,
        alloc_unfold, if_neg h1, if_neg h2,
        if_neg (by rw [directCap_eq]; omega)] at hr
      cases hr
      exact iff_of_false (by simp) (by tauto)
  · rw [MaxFileSize_eq] at h1
    have hd : divRoundUp n SectorSize = 30 :=
      divRoundUp_eq30 (by omega) (by omega)
    rw [hd] at h2
    rw [alloc_indirect_shape f hdr fm disk n (by omega) (by omega)
      (by omega)] at hr
    cases hr
    rw [MaxFileSize_eq, hd]
    exact iff_of_false (by simp) (by omega)

theorem alloc_true_fields (f : Nat) (hdr : FileHeader) (fm : BitMap)
    (disk : Disk) (n : Int) (r : Bool × FileHeader × BitMap × Disk)
    (hr : FileHeader.Allocate (f + 1) hdr fm disk n = some r)
    (ht : r.1 = true) :
    r.2.1.numBytes = n ∧ r.2.1.numSectors = divRoundUp n SectorSize := by
  rw [alloc_unfold] at hr
  split at hr
  · cases hr; exact absurd ht (by simp)
  split at hr
  · cases hr; exact absurd ht (by simp)
  split at hr
  · cases hA : FileHeader.Allocate f FileHeader.empty
        (claimLoop hdr.dataSectors fm 0 (NumDirect - 1)).2 disk
        (n - ((NumDirect : Int) - 1) * SectorSize) with
    | none => rw [hA, Option.none_bind] at hr; cases hr
    | some r2 =>
      rw [hA] at hr
      simp only [Option.some_bind] at hr
      by_cases hb : r2.1 = false
      · rw [if_pos hb] at hr
        cases hr
        exact absurd ht (by simp)
      · rw [if_neg hb] at hr
        cases hr
        exact ⟨rfl, rfl⟩
  · cases hr; exact ⟨rfl, rfl⟩

/-! ### Result value of Extend -/

theorem ext_true_fields (f : Nat) (hdr : FileHeader) (fm : BitMap)
    (disk : Disk) (n : Int) (r : Bool × FileHeader × BitMap × Disk)
    (hr : FileHeader.Extend (f + 1) hdr fm disk n = some r)
    (ht : r.1 = true) :
    r.2.1.numBytes = n ∧ r.2.1.numSectors = divRoundUp n SectorSize := by
  rw [ext_unfold] at hr
  split at hr
  · cases hr; exact absurd ht (by simp)
  split at hr
  · cases hr; exact absurd ht (by simp)
  split at hr
  · split at hr
    · cases hA : FileHeader.Allocate f FileHeader.empty
          (claimLoop hdr.dataSectors fm hdr.numSectors.toNat
            (((NumDirect : Int) - 1) - hdr.numSectors).toNat).2 disk
          (n - ((NumDirect : Int) - 1) * SectorSize) with
      | none => rw [hA, Option.none_bind] at hr; cases hr
      | some r2 =>
        rw [hA] at hr
        simp only [Option.some_bind] at hr
        cases hr
        exact ⟨rfl, rfl⟩
    · cases hE : FileHeader.Extend f
          (disk.read (hdr.dataSectors.getD (NumDirect - 1) 0)) fm disk
          (n - ((NumDirect : Int) - 1) * SectorSize) with
      | none => rw [hE, Option.none_bind] at hr; cases hr
      | some r2 =>
        rw [hE] at hr
        simp only [Option.some_bind] at hr
        by_cases hb : r2.1 = false
        · rw [if_pos hb] at hr
          cases hr
          exact absurd ht (by simp)
        · rw [if_neg hb] at hr
          cases hr
          exact ⟨rfl, rfl⟩
  · cases hr
    exact ⟨rfl, rfl⟩

theorem ext_success :
    ∀ (f : Nat) (n : Int) (hdr : FileHeader) (fm : BitMap) (disk : Disk),
      n.toNat + 2 ≤ f →
      ¬ divRoundUp n SectorSize > MaxFileSize →
      ¬ fm.NumClear < divRoundUp n SectorSize →
      ∃ r, FileHeader.Extend f hdr fm disk n = some r ∧ r.1 = true := by
  intro f
  induction f with
  | zero => intro n hdr fm disk hf; exact absurd hf (by omega)
  | succ g ih =>
    intro n hdr fm disk hf hc1 hc2
    by_cases hdir : n ≤ 3712
    · apply Exists.intro
      constructor
      · rw [ext_unfold, if_neg hc1, if_neg hc2,
          if_neg (by rw [directCap_eq]; omega)]
      · rfl
    · rw [MaxFileSize_eq] at hc1
      have hn0 : 0 ≤ n := by omega
      have hsub : divRoundUp (n - 3712) SectorSize
          = divRoundUp n SectorSize - 29 := divRoundUp_sub (by omega)
      have hmono := divRoundUp_spec n hn0
      by_cases hcase : hdr.numBytes ≤ ((NumDirect : Int) - 1) * SectorSize
      · obtain ⟨g2, rfl⟩ : ∃ g2, g = g2 + 2 := ⟨g - 2, by omega⟩
        obtain ⟨r, hr⟩ := alloc_isSome g2 FileHeader.empty
          (claimLoop hdr.dataSectors fm hdr.numSectors.toNat
            (((NumDirect : Int) - 1) - hdr.numSectors).toNat).2 disk
          (n - ((NumDirect : Int) - 1) * SectorSize)
        apply Exists.intro
        constructor
        · rw [ext_unfold, if_neg (by rw [MaxFileSize_eq]; exact hc1), if_neg hc2,
            if_pos (by rw [directCap_eq]; omega), if_pos hcase, hr,
            Option.some_bind]
        · rfl
      · obtain ⟨rx, hrec, hrx⟩ := ih (n - 3712)
          (disk.read (hdr.dataSectors.getD (NumDirect - 1) 0)) fm disk
          (by omega) (by rw [MaxFileSize_eq, hsub]; omega) (by rw [hsub]; omega)
        obtain ⟨rx1, rx2⟩ := rx
        simp only at hrx
        subst hrx
        apply Exists.intro
        constructor
        · rw [ext_unfold, if_neg (by rw [MaxFileSize_eq]; exact hc1), if_neg hc2,
            if_pos (by rw [directCap_eq]; omega), if_neg hcase,
            show ((NumDirect : Int) - 1) * SectorSize = 3712 from directCap_eq,
            hrec, Option.some_bind, if_neg (by simp)]
        · rfl

/-! ### Neither Allocate nor Extend ever returns a sector to the free map -/

theorem alloc_marked_mono :
    ∀ (f : Nat) (hdr : FileHeader) (fm : BitMap) (disk : Disk) (n : Int)
      (r : Bool × FileHeader × BitMap × Disk) (t : Int),
      FileHeader.Allocate f hdr fm disk n = some r →
      fm.Test t = true → r.2.2.1.Test t = true := by
  intro f
  induction f with
  | zero => intro hdr fm disk n r t hr; cases hr
  | succ g ih =>
    intro hdr fm disk n r t hr hT
    rw [alloc_unfold] at hr
    split at hr
    · cases hr; exact hT
    split at hr
    · cases hr; exact hT
    split at hr
    · cases hA : FileHeader.Allocate g FileHeader.empty
          (claimLoop hdr.dataSectors fm 0 (NumDirect - 1)).2 disk
          (n - ((NumDirect : Int) - 1) * SectorSize) with
      | none => rw [hA, Option.none_bind] at hr; cases hr
      | some r2 =>
        rw [hA] at hr
        simp only [Option.some_bind] at hr
        have hmid : r2.2.2.1.Test t = true :=
          ih FileHeader.empty _ disk _ r2 t hA
            (claimLoop_marked_mono (NumDirect - 1) hdr.dataSectors fm 0 t hT)
        by_cases hb : r2.1 = false
        · rw [if_pos hb] at hr
          cases hr
          exact hmid
        · rw [if_neg hb] at hr
          cases hr
          exact find_marked_mono hmid
    · cases hr
      exact claimLoop_marked_mono _ hdr.dataSectors fm 0 t hT

theorem ext_marked_mono :
    ∀ (f : Nat) (hdr : FileHeader) (fm : BitMap) (disk : Disk) (n : Int)
      (r : Bool × FileHeader × BitMap × Disk) (t : Int),
      FileHeader.Extend f hdr fm disk n = some r →
      fm.Test t = true → r.2.2.1.Test t = true := by
  intro f
  induction f with
  | zero => intro hdr fm disk n r t hr; cases hr
  | succ g ih =>
    intro hdr fm disk n r t hr hT
    rw [ext_unfold] at hr
    split at hr
    · cases hr; exact hT
    split at hr
    · cases hr; exact hT
    split at hr
    · split at hr
      · cases hA : FileHeader.Allocate g FileHeader.empty
            (claimLoop hdr.dataSectors fm hdr.numSectors.toNat
              (((NumDirect : Int) - 1) - hdr.numSectors).toNat).2 disk
            (n - ((NumDirect : Int) - 1) * SectorSize) with
        | none => rw [hA, Option.none_bind] at hr; cases hr
        | some r2 =>
          rw [hA] at hr
          simp only [Option.some_bind] at hr
          cases hr
          exact find_marked_mono (alloc_marked_mono g FileHeader.empty _ disk _ r2 t hA
            (claimLoop_marked_mono _ hdr.dataSectors fm _ t hT))
      · cases hE : FileHeader.Extend g
            (disk.read (hdr.dataSectors.getD (NumDirect - 1) 0)) fm disk
            (n - ((NumDirect : Int) - 1) * SectorSize) with
        | none => rw [hE, Option.none_bind] at hr; cases hr
        | some r2 =>
          rw [hE] at hr
          simp only [Option.some_bind] at hr
          have hmid : r2.2.2.1.Test t = true := ih _ fm disk _ r2 t hE hT
          by_cases hb : r2.1 = false
          · rw [if_pos hb] at hr
            cases hr
            exact hmid
          · rw [if_neg hb] at hr
            cases hr
            exact hmid
    · cases hr
      exact claimLoop_marked_mono _ hdr.dataSectors fm _ t hT

/-! ### Disk read/write lemmas -/

theorem disk_read_write_self (d : Disk) (s : Int) (h : FileHeader) :
    (d.write s h).read s = h := by
  unfold Disk.read Disk.write
  simp

theorem disk_write_write_self (d : Disk) (s : Int) (h1 h2 : FileHeader) :
    (d.write s h1).write s h2 = d.write s h2 := by
  funext t
  show (if t = s then h2 else if t = s then h1 else d t) = if t = s then h2 else d t
  by_cases ht : t = s
  · rw [if_pos ht, if_pos ht]
  · rw [if_neg ht, if_neg ht, if_neg ht]

/-! ### Claim theorems -/

/-- Claim C8: for every header state, writing it back to a sector and
fetching from that sector into a fresh node yields identical
length_bytes (numBytes), sector_count (numSectors) and pointer array
(dataSectors).  Proved for all header states, which includes every state
reachable via Allocate and Extend. -/
theorem C8_roundtrip (hdr : FileHeader) (s : Int) (disk : Disk) :
    (FileHeader.FetchFrom (FileHeader.WriteBack hdr s disk) s).numBytes
        = hdr.numBytes ∧
    (FileHeader.FetchFrom (FileHeader.WriteBack hdr s disk) s).numSectors
        = hdr.numSectors ∧
    (FileHeader.FetchFrom (FileHeader.WriteBack hdr s disk) s).dataSectors
        = hdr.dataSectors := by
  unfold FileHeader.FetchFrom FileHeader.WriteBack
  rw [disk_read_write_self]
  exact ⟨rfl, rfl, rfl⟩

/-- Claim C9: when Allocate on a fresh node passes the size-ceiling check
but fails the free-space check, it returns false with the free map and
disk unchanged, yet the node's numBytes has already been overwritten with
the requested size and numSectors with the needed sector count. -/
theorem C9_fail_mutates_fields (f : Nat) (fm : BitMap) (disk : Disk)
    (n : Int) (h1 : ¬ n > MaxFileSize)
    (h2 : fm.NumClear < divRoundUp n SectorSize) :
    FileHeader.Allocate (f + 1) FileHeader.empty fm disk n = some (false,
      { FileHeader.empty with numBytes := n,
                              numSectors := divRoundUp n SectorSize },
      fm, disk) :=
  alloc_fail_space f FileHeader.empty fm disk n h1 h2

/-- Witness for C9 at requested size 200 against a one-sector free map:
needed sectors = 2 exceed the single clear sector, Allocate returns
false, the free map and disk are untouched, and the fresh node's fields
are left mutated to 200 bytes and 2 sectors. -/
theorem C9_fail_mutates_fields_witness :
    FileHeader.Allocate 1 FileHeader.empty fm1 disk0 200 = some (false,
      { FileHeader.empty with numBytes := 200,
                              numSectors := divRoundUp 200 SectorSize },
      fm1, disk0) :=
  C9_fail_mutates_fields 0 fm1 disk0 200 (by decide) (by decide)

/-- Claim C4: Allocate on a fresh node returns false exactly when the
requested size exceeds MaxFileSize or the free map has fewer clear
sectors than the needed sector count; and on either of the two top-level
check failures it returns with the free map and the disk unchanged. -/
theorem C4_alloc_failure (f : Nat) (fm : BitMap) (disk : Disk) (n : Int) :
    (((FileHeader.Allocate (f + 2) FileHeader.empty fm disk n).map
        (fun r => r.1) = some false)
      ↔ (n > MaxFileSize ∨ fm.NumClear < divRoundUp n SectorSize)) ∧
    ((n > MaxFileSize ∨ fm.NumClear < divRoundUp n SectorSize) →
      (FileHeader.Allocate (f + 2) FileHeader.empty fm disk n).map
          (fun r => (r.1, r.2.2.1)) = some (false, fm) ∧
      (FileHeader.Allocate (f + 2) FileHeader.empty fm disk n).map
          (fun r => r.2.2.2) = some disk) := by
  constructor
  · constructor
    · intro hm
      obtain ⟨r, hr⟩ := alloc_isSome f FileHeader.empty fm disk n
      rw [hr] at hm
      simp only [Option.map_some', Option.some_inj] at hm
      exact (alloc_false_iff f FileHeader.empty fm disk n r hr).mp hm
    · intro hc
      by_cases h1 : n > MaxFileSize
      · rw [alloc_fail_max (f + 1) FileHeader.empty fm disk n h1]
        rfl
      · rw [alloc_fail_space (f + 1) FileHeader.empty fm disk n h1 (by tauto)]
        rfl
  · intro hc
    by_cases h1 : n > MaxFileSize
    · rw [alloc_fail_max (f + 1) FileHeader.empty fm disk n h1]
      exact ⟨rfl, rfl⟩
    · rw [alloc_fail_space (f + 1) FileHeader.empty fm disk n h1 (by tauto)]
      exact ⟨rfl, rfl⟩

/-- Witness for C4 at requested size 5000 (above MaxFileSize = 3840)
against the 40-sector free map: the failure is reported and the free map
is returned unchanged. -/
theorem C4_alloc_failure_witness :
    (5000 : Int) > MaxFileSize ∧
    (FileHeader.Allocate 2 FileHeader.empty fm40 disk0 5000).map
        (fun r => (r.1, r.2.2.1)) = some (false, fm40) := by
  refine ⟨by decide, ?_⟩
  exact ((C4_alloc_failure 0 fm40 disk0 5000).2 (Or.inl (by decide))).1

/-- Claim C3 (amended): Extend returns false exactly when its own checks
fire — the unit-mismatched ceiling check compares the new sector count
(not the byte size) against the byte constant MaxFileSize, or the free
map has fewer clear sectors than the full new sector count — and
whenever it returns false, the node's fields, the free map and the disk
are all unchanged.  The fuel hypothesis bounds the recursion depth. -/
theorem C3_extend_failure (f : Nat) (hdr : FileHeader) (fm : BitMap)
    (disk : Disk) (n : Int) (hf : n.toNat + 2 ≤ f) :
    (((FileHeader.Extend f hdr fm disk n).map (fun r => r.1) = some false)
      ↔ (divRoundUp n SectorSize > MaxFileSize ∨
         fm.NumClear < divRoundUp n SectorSize)) ∧
    ((divRoundUp n SectorSize > MaxFileSize ∨
      fm.NumClear < divRoundUp n SectorSize) →
      FileHeader.Extend f hdr fm disk n = some (false, hdr, fm, disk)) := by
  obtain ⟨g, rfl⟩ : ∃ g, f = g + 1 := ⟨f - 1, by omega⟩
  constructor
  · constructor
    · intro hm
      by_contra hc
      push_neg at hc
      obtain ⟨r, hr, hrt⟩ := ext_success (g + 1) n hdr fm disk hf
        (by omega) (by omega)
      rw [hr] at hm
      simp only [Option.map_some', Option.some_inj] at hm
      rw [hrt] at hm
      cases hm
    · intro hc
      by_cases h1 : divRoundUp n SectorSize > MaxFileSize
      · rw [ext_fail_max g hdr fm disk n h1]
        rfl
      · rw [ext_fail_space g hdr fm disk n h1 (by tauto)]
        rfl
  · intro hc
    by_cases h1 : divRoundUp n SectorSize > MaxFileSize
    · exact ext_fail_max g hdr fm disk n h1
    · exact ext_fail_space g hdr fm disk n h1 (by tauto)

/-- Witness for C3 with requested size 100 against the one-sector free
map: one sector is needed but 0 remain clear after marking none — here
NumClear is 1 so neither condition holds and Extend does not fail; the
iff is applied at a concrete state. -/
theorem C3_extend_failure_witness :
    ((FileHeader.Extend 102 FileHeader.empty fm1 disk0 100).map
        (fun r => r.1) = some false
      ↔ (divRoundUp 100 SectorSize > MaxFileSize ∨
         fm1.NumClear < divRoundUp 100 SectorSize)) :=
  (C3_extend_failure 102 FileHeader.empty fm1 disk0 100 (by decide)).1

/-- Claim C10: for any node and a strictly smaller requested size that
still passes Extend's (unit-mismatched) ceiling check and its free-space
check, Extend succeeds, overwrites numBytes and numSectors with the
smaller values, and returns no sector to the free map: every sector
marked allocated before the call is still marked afterwards, so the
node's trailing sectors are silently orphaned. -/
theorem C10_silent_shrink (f : Nat) (hdr : FileHeader) (fm : BitMap)
    (disk : Disk) (n : Int) (hf : n.toNat + 2 ≤ f) (h0 : 0 ≤ n)
    (hshrink : n < hdr.numBytes)
    (hceil : ¬ divRoundUp n SectorSize > MaxFileSize)
    (hspace : ¬ fm.NumClear < divRoundUp n SectorSize) :
    ((FileHeader.Extend f hdr fm disk n).map
        (fun r => (r.1, r.2.1.numBytes, r.2.1.numSectors))
      = some (true, n, divRoundUp n SectorSize)) ∧
    (∀ t, fm.Test t = true →
      (FileHeader.Extend f hdr fm disk n).map (fun r => r.2.2.1.Test t)
        = some true) := by
  obtain ⟨g, rfl⟩ : ∃ g, f = g + 1 := ⟨f - 1, by omega⟩
  obtain ⟨r, hr, hrt⟩ := ext_success (g + 1) n hdr fm disk hf hceil hspace
  obtain ⟨hb, hs⟩ := ext_true_fields g hdr fm disk n r hr hrt
  constructor
  · rw [hr]
    simp only [Option.map_some', Option.some_inj, hrt, hb, hs]
  · intro t ht
    rw [hr]
    simp only [Option.map_some', Option.some_inj]
    exact ext_marked_mono (g + 1) hdr fm disk n r t hr ht

/-- Witness for C10: a node claiming 500 bytes over 4 sectors (sectors
0-3 of the 40-sector map) is shrunk to 100 bytes; Extend returns true,
the fields drop to 100 bytes / 1 sector, and sector 3 stays marked in
the free map even though no longer referenced. -/
theorem C10_silent_shrink_witness :
    ((FileHeader.Extend 102 hdrShrink fmShrink disk0 100).map
        (fun r => (r.1, r.2.1.numBytes, r.2.1.numSectors))
      = some (true, 100, 1)) ∧
    ((FileHeader.Extend 102 hdrShrink fmShrink disk0 100).map
        (fun r => r.2.2.1.Test 3) = some true) := by
  have h := C10_silent_shrink 102 hdrShrink fmShrink disk0 100 (by decide)
    (by decide) (by decide) (by decide) (by decide)
  exact ⟨h.1, h.2 3 (by decide)⟩

/-- Claim C6: after every successful Allocate and every successful
Extend the node satisfies sector_count = ceil(length_bytes /
sector_size) (stated against specCeilSectors, written from the spec's
words); a WriteBack/FetchFrom round trip preserves the equation, and
FileLength only reads numBytes.  Deallocate, ByteToSector and the Print
traversal (dataSectorList) return no header state in this embedding —
matching the source, which never writes numBytes or numSectors there —
so they cannot break the equation. -/
theorem C6_size_sector_invariant :
    (∀ (f : Nat) (hdr : FileHeader) (fm : BitMap) (disk : Disk) (n : Int)
        (r : Bool × FileHeader × BitMap × Disk), 0 ≤ n →
      FileHeader.Allocate (f + 1) hdr fm disk n = some r → r.1 = true →
      r.2.1.numSectors = specCeilSectors r.2.1.numBytes) ∧
    (∀ (f : Nat) (hdr : FileHeader) (fm : BitMap) (disk : Disk) (n : Int)
        (r : Bool × FileHeader × BitMap × Disk), 0 ≤ n →
      FileHeader.Extend (f + 1) hdr fm disk n = some r → r.1 = true →
      r.2.1.numSectors = specCeilSectors r.2.1.numBytes) ∧
    (∀ (hdr : FileHeader) (s : Int) (disk : Disk),
      hdr.numSectors = specCeilSectors hdr.numBytes →
      (FileHeader.FetchFrom (FileHeader.WriteBack hdr s disk) s).numSectors
        = specCeilSectors
          (FileHeader.FetchFrom (FileHeader.WriteBack hdr s disk) s).numBytes) ∧
    (∀ hdr : FileHeader, FileHeader.FileLength hdr = hdr.numBytes) := by
  refine ⟨?_, ?_, ?_, fun hdr => rfl⟩
  · intro f hdr fm disk n r h0 hr ht
    obtain ⟨hb, hs⟩ := alloc_true_fields f hdr fm disk n r hr ht
    rw [hb, hs, divRoundUp_eq_spec n h0]
  · intro f hdr fm disk n r h0 hr ht
    obtain ⟨hb, hs⟩ := ext_true_fields f hdr fm disk n r hr ht
    rw [hb, hs, divRoundUp_eq_spec n h0]
  · intro hdr s disk h
    unfold FileHeader.FetchFrom FileHeader.WriteBack
    rw [disk_read_write_self]
    exact h

/-- Witness for C6: Allocate(500) on a fresh node over a five-sector
free map succeeds with 4 = ceil(500/128) sectors, and the resulting
node satisfies the size/sector-count equation. -/
theorem C6_size_sector_invariant_witness :
    (0 : Int) ≤ 500 ∧
    FileHeader.Allocate 1 FileHeader.empty fm5 disk0 500
      = some (true, hdrShrink, fmShrink, disk0) ∧
    hdrShrink.numSectors = specCeilSectors hdrShrink.numBytes := by
  refine ⟨by decide, rfl, ?_⟩
  exact C6_size_sector_invariant.1 0 FileHeader.empty fm5 disk0 500
    (true, hdrShrink, fmShrink, disk0) (by decide) rfl rfl

/-- Claim C2 counterexample: Allocate(3713) on a 40-sector all-clear
free map succeeds and consumes 31 sectors, but the matching Deallocate
returns only 30 of them: its numSectors <= NumDirect test treats the
30-sector indirect node as all-direct, clears the indirection sector as
if it were data, and leaks the child's data sector — count_clear ends at
39, not the pre-allocation 40. -/
theorem C2_conservation_counterexample :
    (alloc3713.map (fun r => r.1) = some true) ∧
    fm40.NumClear = 40 ∧
    (alloc3713.map (fun r => r.2.2.1.NumClear) = some 9) ∧
    (alloc3713.bind (fun r =>
        (FileHeader.Deallocate 2 r.2.1 r.2.2.1 r.2.2.2).map
          (fun m => m.NumClear)) = some 39) ∧
    (39 : Int) ≠ 40 := by
  refine ⟨by decide, by decide, by decide, by decide, by decide⟩

/-- Claim C2 (amended): in the purely direct regime
(n <= (K-1)*SectorSize) the conservation law holds: a successful
Allocate(n) decreases count_clear by exactly the ceil(n/128) data
sectors it consumed (no indirection nodes exist in this regime), and the
matching Deallocate restores count_clear to its exact pre-allocation
value.  The counterexample above shows the law fails in the indirect
regime, where Deallocate leaks the child's data sector. -/
theorem C2_conservation_direct (f g : Nat) (fm : BitMap) (disk : Disk)
    (n : Int) (r : Bool × FileHeader × BitMap × Disk)
    (h0 : 0 ≤ n) (h1 : n ≤ 3712)
    (hr : FileHeader.Allocate (f + 1) FileHeader.empty fm disk n = some r)
    (ht : r.1 = true) :
    r.2.2.1.NumClear = fm.NumClear - divRoundUp n SectorSize ∧
    (FileHeader.Deallocate (g + 1) r.2.1 r.2.2.1 r.2.2.2).map
        (fun m => m.NumClear) = some fm.NumClear := by
  have hd := divRoundUp_spec n h0
  have hd29 : divRoundUp n SectorSize ≤ 29 := (divRoundUp_le29 h0).mpr h1
  by_cases hsp : fm.NumClear < divRoundUp n SectorSize
  · rw [alloc_fail_space f FileHeader.empty fm disk n (by rw [MaxFileSize_eq]; omega) hsp] at hr
    cases hr
    exact absurd ht (by simp)
  · rw [alloc_direct_shape f FileHeader.empty fm disk n h0 h1 (by omega)] at hr
    cases hr
    have hlen : FileHeader.empty.dataSectors.length = 30 := by
      simp [FileHeader.empty, NumDirect]
    have hkint : (((divRoundUp n SectorSize).toNat : Nat) : Int)
        = divRoundUp n SectorSize := by omega
    obtain ⟨hcount, hclaimed, hdist⟩ := claimLoop_main
      (divRoundUp n SectorSize).toNat FileHeader.empty.dataSectors fm 0
      (by omega) (by omega)
    refine ⟨by rw [hcount]; omega, ?_⟩
    have hdeal : FileHeader.Deallocate (g + 1)
        (FileHeader.mk n (divRoundUp n SectorSize)
          (claimLoop FileHeader.empty.dataSectors fm 0
            (divRoundUp n SectorSize).toNat).1)
        (claimLoop FileHeader.empty.dataSectors fm 0
          (divRoundUp n SectorSize).toNat).2 disk
        = clearLoop (claimLoop FileHeader.empty.dataSectors fm 0
            (divRoundUp n SectorSize).toNat).2
          (claimLoop FileHeader.empty.dataSectors fm 0
            (divRoundUp n SectorSize).toNat).1 0
          (divRoundUp n SectorSize).toNat := by
      rw [dealloc_unfold]
      rw [if_pos (by show divRoundUp n SectorSize ≤ (NumDirect : Int); norm_num [NumDirect]; omega)]
    obtain ⟨fm2, hc1, hc2⟩ := clearLoop_restore (divRoundUp n SectorSize).toNat
      (claimLoop FileHeader.empty.dataSectors fm 0
        (divRoundUp n SectorSize).toNat).2
      (claimLoop FileHeader.empty.dataSectors fm 0
        (divRoundUp n SectorSize).toNat).1 0
      (fun j hj => ⟨(hclaimed j hj).1, (hclaimed j hj).2.2⟩)
      (fun j j2 hjj hj2 => hdist j j2 hjj hj2)
    rw [hdeal, hc1]
    simp only [Option.map_some', Option.some_inj]
    rw [hc2, hcount]
    omega

/-- Witness for C2 (amended): Allocate(500) on the five-sector map
consumes exactly 4 sectors (count_clear 5 -> 1) and Deallocate returns
all of them (count_clear back to 5). -/
theorem C2_conservation_direct_witness :
    (0 : Int) ≤ 500 ∧
    fmShrink.NumClear = fm5.NumClear - divRoundUp 500 SectorSize ∧
    (FileHeader.Deallocate 1 hdrShrink fmShrink disk0).map
        (fun m => m.NumClear) = some fm5.NumClear := by
  have h := C2_conservation_direct 0 0 fm5 disk0 500
    (true, hdrShrink, fmShrink, disk0) (by decide) (by decide) rfl rfl
  exact ⟨by decide, h.1, h.2⟩

/-- Claim C1 counterexample: Allocate(3713) produces a node with
sector_count = 30 = K, yet slot K-1 does not hold a direct data sector:
it holds sector 30, where the disk stores the chained child node (byte
length 1, one sector), and ByteToSector resolves offset 3712 — the
offset that would live in slot K-1 were it direct data — through the
chain to sector 29 instead of returning slot K-1's value 30.  This
refutes the claimed threshold "direct whenever sector_count <= K". -/
theorem C1_threshold_counterexample :
    (alloc3713.map (fun r => r.1) = some true) ∧
    (alloc3713.map (fun r => r.2.1.numSectors) = some 30) ∧
    ((30 : Int) ≤ (NumDirect : Int)) ∧
    (alloc3713.map (fun r => r.2.1.dataSectors.getD 29 0) = some 30) ∧
    (alloc3713.map (fun r =>
        ((r.2.2.2.read 30).numBytes, (r.2.2.2.read 30).numSectors))
      = some (1, 1)) ∧
    (alloc3713.bind (fun r =>
        FileHeader.ByteToSector 2 r.2.1 r.2.2.2 3712) = some 29) ∧
    (some (30 : Int) ≠ some (29 : Int)) := by
  refine ⟨by decide, by decide, by decide, by decide, by decide, by decide,
    by decide⟩

/-- Claim C1 (amended): the direct/indirect threshold actually used by
the node's traversal is sector_count <= K-1 (not <= K): ByteToSector
reads slot K-1 directly only when sector_count <= K-1 and otherwise
dereferences it as the next node's sector; Allocate in the direct regime
produces sector_count <= K-1 and never touches slot K-1, while in the
indirect regime (sector_count = K) both Allocate and a crossing Extend
store in slot K-1 the sector of the chained child node.  Deallocate
alone deviates: it treats every node with sector_count <= K as
all-direct, misreading slot K-1 at sector_count = K. -/
theorem C1_threshold (f : Nat) :
    (∀ (hdr : FileHeader) (disk : Disk) (off : Int),
      hdr.numSectors ≤ (NumDirect : Int) - 1 →
      FileHeader.ByteToSector (f + 1) hdr disk off
        = some (hdr.dataSectors.getD (off / SectorSize).toNat 0)) ∧
    (∀ (hdr : FileHeader) (disk : Disk) (off : Int),
      ¬ hdr.numSectors ≤ (NumDirect : Int) - 1 →
      FileHeader.ByteToSector (f + 1) hdr disk off
        = FileHeader.ByteToSector f
            (disk.read (hdr.dataSectors.getD (NumDirect - 1) 0)) disk
            (off - ((NumDirect : Int) - 1) * SectorSize)) ∧
    (∀ (hdr : FileHeader) (fm : BitMap) (disk : Disk),
      hdr.numSectors ≤ (NumDirect : Int) →
      FileHeader.Deallocate (f + 1) hdr fm disk
        = clearLoop fm hdr.dataSectors 0 hdr.numSectors.toNat) ∧
    (∀ (fm : BitMap) (disk : Disk) (n : Int), 0 ≤ n → n ≤ 3712 →
      divRoundUp n SectorSize ≤ fm.NumClear →
      (FileHeader.Allocate (f + 1) FileHeader.empty fm disk n).map
          (fun r => decide (r.2.1.numSectors ≤ (NumDirect : Int) - 1))
        = some true) ∧
    (∀ (fm : BitMap) (disk : Disk) (n : Int), 3712 < n → n ≤ 3840 →
      30 ≤ fm.NumClear →
      (FileHeader.Allocate (f + 2) FileHeader.empty fm disk n).map
          (fun r => (r.2.1.numSectors,
            (r.2.2.2.read (r.2.1.dataSectors.getD 29 0)).numBytes))
        = some (30, n - 3712)) ∧
    (∀ (hdr : FileHeader) (fm : BitMap) (disk : Disk) (n : Int),
      3712 < n → n ≤ 3840 → 30 ≤ fm.NumClear →
      hdr.numBytes ≤ 3712 → 0 ≤ hdr.numSectors →
      hdr.dataSectors.length = 30 →
      (FileHeader.Extend (f + 2) hdr fm disk n).map
          (fun r => (r.2.1.numSectors,
            (r.2.2.2.read (r.2.1.dataSectors.getD 29 0)).numBytes))
        = some (30, n - 3712)) := by
  refine ⟨?_, ?_, ?_, ?_, ?_, ?_⟩
  · intro hdr disk off h
    rw [b2s_unfold, if_pos h]
  · intro hdr disk off h
    rw [b2s_unfold, if_neg h]
  · intro hdr fm disk h
    rw [dealloc_unfold, if_pos h]
  · intro fm disk n h0 h1 h2
    rw [alloc_direct_shape f FileHeader.empty fm disk n h0 h1 h2]
    simp only [Option.map_some', Option.some_inj]
    rw [decide_eq_true_eq]
    show divRoundUp n SectorSize ≤ (NumDirect : Int) - 1
    rw [NumDirect_int_sub]
    exact (divRoundUp_le29 h0).mpr h1
  · intro fm disk n h1 h2 h3
    rw [alloc_indirect_shape f FileHeader.empty fm disk n h1 h2 h3]
    simp only [Option.map_some', Option.some_inj]
    have hlen : (claimLoop FileHeader.empty.dataSectors fm 0 29).1.length = 30 := by
      rw [(claimLoop_len 29 FileHeader.empty.dataSectors fm 0).1]
      simp [FileHeader.empty, NumDirect]
    rw [show (((claimLoop FileHeader.empty.dataSectors fm 0 29).1.set 29
        ((claimLoop FileHeader.empty.dataSectors
          (claimLoop FileHeader.empty.dataSectors fm 0 29).2 0 1).2.find).1).getD 29 0)
        = ((claimLoop FileHeader.empty.dataSectors
          (claimLoop FileHeader.empty.dataSectors fm 0 29).2 0 1).2.find).1
      from aux_getD_set_self (by omega)]
    rw [disk_read_write_self]
  · intro hdr fm disk n h1 h2 h3 h4 h5 h6
    rw [ext_cross_shape f hdr fm disk n h1 h2 h3 h4 h5]
    simp only [Option.map_some', Option.some_inj]
    have hlen : (claimLoop hdr.dataSectors fm hdr.numSectors.toNat
        ((29 - hdr.numSectors).toNat)).1.length = 30 := by
      rw [(claimLoop_len _ hdr.dataSectors fm _).1, h6]
    rw [show (((claimLoop hdr.dataSectors fm hdr.numSectors.toNat
        ((29 - hdr.numSectors).toNat)).1.set 29
        ((claimLoop FileHeader.empty.dataSectors
          (claimLoop hdr.dataSectors fm hdr.numSectors.toNat
            ((29 - hdr.numSectors).toNat)).2 0 1).2.find).1).getD 29 0)
        = ((claimLoop FileHeader.empty.dataSectors
          (claimLoop hdr.dataSectors fm hdr.numSectors.toNat
            ((29 - hdr.numSectors).toNat)).2 0 1).2.find).1
      from aux_getD_set_self (by omega)]
    rw [disk_read_write_self]

/-- Witness for C1 (amended): the indirect conjunct applied to
Allocate(3713) on the 40-sector map — the produced node has
sector_count = 30 and its slot 29 points at the sector holding the
one-byte child node. -/
theorem C1_threshold_witness :
    (alloc3713.map (fun r => (r.2.1.numSectors,
        (r.2.2.2.read (r.2.1.dataSectors.getD 29 0)).numBytes))
      = some (30, 1)) :=
  (C1_threshold 0).2.2.2.2.1 fm40 disk0 3713 (by decide) (by decide) (by decide)

theorem SectorSize_eq : SectorSize = (128 : Int) := rfl

/-- Claim C7 counterexample: on the indirect node produced by
Allocate(3713), byte 0 is held by sector 0 — the first entry of both the
pointer table and the chain's data-sector sequence — yet
ByteToSector(0) recurses into the child with the negative offset -3712
(an out-of-bounds child-array read in the C++) and returns 29. -/
theorem C7_translation_counterexample :
    (alloc3713.map (fun r => r.1) = some true) ∧
    (alloc3713.bind (fun r =>
        (FileHeader.dataSectorList 2 r.2.1 r.2.2.2).map
          (fun L => L.getD 0 0)) = some 0) ∧
    (alloc3713.map (fun r => r.2.1.dataSectors.getD 0 0) = some 0) ∧
    (alloc3713.bind (fun r =>
        FileHeader.ByteToSector 2 r.2.1 r.2.2.2 0) = some 29) ∧
    (some (29 : Int) ≠ some (0 : Int)) := by
  refine ⟨by decide, by decide, by decide, by decide, by decide⟩

set_option maxHeartbeats 2000000 in
/-- Claim C7 (amended): ByteToSector returns pointers[offset/128]
directly when sector_count <= K-1 and otherwise resolves the child from
pointers[K-1] with offset - (K-1)*128 — and this translates a byte
offset to the sector holding it (entry offset/128 of the chain's
data-sector sequence) for all offsets of a direct allocation, but only
for tail offsets (offset >= (K-1)*128) of an indirect allocation; the
counterexample shows offsets below (K-1)*128 are mistranslated because
the recursion does not keep small offsets out of the chain. -/
theorem C7_translation (f : Nat) :
    (∀ (hdr : FileHeader) (disk : Disk) (off : Int),
      hdr.numSectors ≤ (NumDirect : Int) - 1 →
      FileHeader.ByteToSector (f + 1) hdr disk off
        = some (hdr.dataSectors.getD (off / SectorSize).toNat 0)) ∧
    (∀ (hdr : FileHeader) (disk : Disk) (off : Int),
      ¬ hdr.numSectors ≤ (NumDirect : Int) - 1 →
      FileHeader.ByteToSector (f + 1) hdr disk off
        = FileHeader.ByteToSector f
            (disk.read (hdr.dataSectors.getD (NumDirect - 1) 0)) disk
            (off - ((NumDirect : Int) - 1) * SectorSize)) ∧
    (∀ (fm : BitMap) (disk : Disk) (n off : Int),
      0 ≤ n → n ≤ 3712 → divRoundUp n SectorSize ≤ fm.NumClear →
      0 ≤ off → off < n →
      (FileHeader.Allocate (f + 1) FileHeader.empty fm disk n).map
          (fun r => FileHeader.ByteToSector (f + 1) r.2.1 r.2.2.2 off)
        = (FileHeader.Allocate (f + 1) FileHeader.empty fm disk n).map
          (fun r => (FileHeader.dataSectorList (f + 1) r.2.1 r.2.2.2).bind
            (fun L => some (L.getD (off / SectorSize).toNat 0)))) ∧
    (∀ (fm : BitMap) (disk : Disk) (n off : Int),
      3712 < n → n ≤ 3840 → 30 ≤ fm.NumClear →
      3712 ≤ off → off < n →
      (FileHeader.Allocate (f + 2) FileHeader.empty fm disk n).map
          (fun r => FileHeader.ByteToSector (f + 2) r.2.1 r.2.2.2 off)
        = (FileHeader.Allocate (f + 2) FileHeader.empty fm disk n).map
          (fun r => (FileHeader.dataSectorList (f + 2) r.2.1 r.2.2.2).bind
            (fun L => some (L.getD (off / SectorSize).toNat 0)))) := by
  refine ⟨?_, ?_, ?_, ?_⟩
  · intro hdr disk off h
    rw [b2s_unfold, if_pos h]
  · intro hdr disk off h
    rw [b2s_unfold, if_neg h]
  · intro fm disk n off h0 h1 h2 hoff0 hoff1
    rw [alloc_direct_shape f FileHeader.empty fm disk n h0 h1 h2]
    simp only [Option.map_some', Option.some_inj]
    have hdn := divRoundUp_spec n h0
    have hdir : divRoundUp n SectorSize ≤ (NumDirect : Int) - 1 := by
      rw [NumDirect_int_sub]
      exact (divRoundUp_le29 h0).mpr h1
    rw [b2s_unfold, if_pos hdir, dsl_unfold, if_pos hdir, Option.some_bind,
      Option.some_inj]
    have hidx : (off / SectorSize).toNat < (divRoundUp n SectorSize).toNat := by
      rw [SectorSize_eq] at hdn ⊢
      omega
    rw [aux_getD_take hidx]
  · intro fm disk n off h1 h2 h3 hoff0 hoff1
    rw [alloc_indirect_shape f FileHeader.empty fm disk n h1 h2 h3]
    simp only [Option.map_some', Option.some_inj]
    rw [show f + 2 = f + 1 + 1 from rfl]
    have hnot : ¬ ((30 : Int) ≤ (NumDirect : Int) - 1) := by
      rw [NumDirect_int_sub]; omega
    have hlen : (claimLoop FileHeader.empty.dataSectors fm 0 29).1.length = 30 := by
      rw [(claimLoop_len 29 FileHeader.empty.dataSectors fm 0).1]
      simp [FileHeader.empty, NumDirect]
    have hget : (((claimLoop FileHeader.empty.dataSectors fm 0 29).1.set 29
        ((claimLoop FileHeader.empty.dataSectors
          (claimLoop FileHeader.empty.dataSectors fm 0 29).2 0 1).2.find).1).getD
          (NumDirect - 1) 0)
        = ((claimLoop FileHeader.empty.dataSectors
          (claimLoop FileHeader.empty.dataSectors fm 0 29).2 0 1).2.find).1 := by
      rw [show NumDirect - 1 = 29 from rfl]
      exact aux_getD_set_self (by omega)
    rw [b2s_unfold (f + 1), if_neg hnot, hget, disk_read_write_self,
      b2s_unfold f,
      if_pos (by show (1 : Int) ≤ (NumDirect : Int) - 1
                 rw [NumDirect_int_sub]; omega)]
    rw [dsl_unfold (f + 1), if_neg hnot, hget, disk_read_write_self,
      dsl_unfold f,
      if_pos (by show (1 : Int) ≤ (NumDirect : Int) - 1
                 rw [NumDirect_int_sub]; omega)]
    rw [Option.map_some', Option.some_bind]
    refine congrArg some ?_
    have hind1 : ((off - ((NumDirect : Int) - 1) * SectorSize) / SectorSize).toNat
        = 0 := by
      rw [directCap_eq, SectorSize_eq]
      omega
    have hind2 : (off / SectorSize).toNat = 29 := by
      rw [SectorSize_eq]
      omega
    rw [hind1, hind2]
    have hlen29 : ((((claimLoop FileHeader.empty.dataSectors fm 0 29).1.set 29
        ((claimLoop FileHeader.empty.dataSectors
          (claimLoop FileHeader.empty.dataSectors fm 0 29).2 0 1).2.find).1).take
          (NumDirect - 1)).length) = 29 := by
      rw [show NumDirect - 1 = 29 from rfl, List.length_take, List.length_set,
        hlen]
      omega
    rw [List.getD_append_right _ _ _ _ (by rw [hlen29])]
    rw [hlen29]
    rw [show (29 : Nat) - 29 = 0 from rfl]
    exact (aux_getD_take (show 0 < ((1 : Int)).toNat from by decide)).symm

/-- Witness for C7 (amended): the direct-regime conjunct applied to
Allocate(500) on the five-sector map and offset 300: translation and
the chain's data-sector sequence agree. -/
theorem C7_translation_witness :
    (FileHeader.Allocate 1 FileHeader.empty fm5 disk0 500).map
        (fun r => FileHeader.ByteToSector 1 r.2.1 r.2.2.2 300)
      = (FileHeader.Allocate 1 FileHeader.empty fm5 disk0 500).map
        (fun r => (FileHeader.dataSectorList 1 r.2.1 r.2.2.2).bind
          (fun L => some (L.getD ((300 : Int) / SectorSize).toNat 0))) :=
  (C7_translation 0).2.2.1 fm5 disk0 500 300 (by decide) (by decide)
    (by decide) (by decide) (by decide)

/-! ### Composition of allocation loops (for C5) -/

theorem claimLoop_comp :
    ∀ (m k : Nat) (ds : List Int) (fm : BitMap) (i : Nat),
      claimLoop ds fm i (m + k)
        = claimLoop (claimLoop ds fm i m).1 (claimLoop ds fm i m).2 (i + m) k := by
  intro m
  induction m with
  | zero =>
    intro k ds fm i
    rw [Nat.zero_add, Nat.add_zero]
    rfl
  | succ m2 ih =>
    intro k ds fm i
    rw [Nat.succ_add]
    show claimLoop (ds.set i (fm.find).1) (fm.find).2 (i + 1) (m2 + k) = _
    rw [ih k (ds.set i (fm.find).1) (fm.find).2 (i + 1)]
    rw [show (i + 1) + m2 = i + (m2 + 1) from by omega]
    rfl

set_option maxHeartbeats 1000000 in
theorem chain_step (f : Nat) (b c : Int) (P1 INNERds : List Int) (Q1 : Int)
    (Q2 : BitMap) (d0 : Disk) (hlen : P1.length = 30) (hb : 3712 < b)
    (hc1 : 3712 < c) (hc2 : c ≤ 3840) (hNC : 30 ≤ Q2.NumClear) :
    FileHeader.Extend (f + 2) (FileHeader.mk b 30 (P1.set 29 Q1)) Q2
      (d0.write Q1 (FileHeader.mk (b - 3712) 1 INNERds)) c
    = some (true, FileHeader.mk c 30 (P1.set 29 Q1), Q2,
        d0.write Q1 (FileHeader.mk (c - 3712) 1 INNERds)) := by
  have hdc : divRoundUp c SectorSize = 30 := divRoundUp_eq30 hc1 hc2
  have hdc1 : divRoundUp (c - 3712) SectorSize = 1 := by
    rw [divRoundUp_sub hc1, hdc]
    omega
  have hgetQ : ((P1.set 29 Q1).getD 29 0) = Q1 :=
    aux_getD_set_self (by omega)
  have hchild0 := ext_direct_shape f (FileHeader.mk (b - 3712) 1 INNERds) Q2
    (d0.write Q1 (FileHeader.mk (b - 3712) 1 INNERds)) (c - 3712)
    (by omega) (by omega) (by rw [hdc1]; omega)
  rw [hdc1] at hchild0
  have hmain := ext_chain_shape f (FileHeader.mk b 30 (P1.set 29 Q1)) Q2
    (d0.write Q1 (FileHeader.mk (b - 3712) 1 INNERds)) c _ _ _
    hc1 (by rw [MaxFileSize_eq, hdc]; omega) (by rw [hdc]; omega)
    (by show (3712 : Int) < b; omega)
    (by rw [show ((FileHeader.mk b 30 (P1.set 29 Q1)).dataSectors.getD 29 0)
          = Q1 from hgetQ, disk_read_write_self]
        exact hchild0)
  rw [hmain, hdc,
    show ((FileHeader.mk b 30 (P1.set 29 Q1)).dataSectors.getD 29 0)
      = Q1 from hgetQ, disk_write_write_self]
  rfl

set_option maxHeartbeats 2000000 in
/-- C5 (amended): for sizes `a <= b <= c` within the file-size ceiling,
whenever the sequence `Allocate(a)`; `Extend(b)`; `Extend(c)` on a fresh
node succeeds, the direct `Allocate(c)` on the same initial free map also
succeeds and produces exactly the same final node state, free map, and
disk. The original claim's converse direction (the sequence succeeds
whenever the direct allocation does) is refuted by
the counterexample below. -/
theorem C5_seq (f : Nat) (a b c : Int) (fm0 : BitMap) (d0 : Disk)
    (h0 : 0 ≤ a) (hab : a ≤ b) (hbc : b ≤ c) (hc : c ≤ MaxFileSize)
    (h1 h2 h3 : FileHeader) (f1 f2 f3 : BitMap) (d1 d2 d3 : Disk)
    (hA : FileHeader.Allocate (f + 2) FileHeader.empty fm0 d0 a
      = some (true, h1, f1, d1))
    (hB : FileHeader.Extend (f + 2) h1 f1 d1 b = some (true, h2, f2, d2))
    (hC : FileHeader.Extend (f + 2) h2 f2 d2 c = some (true, h3, f3, d3)) :
    FileHeader.Allocate (f + 2) FileHeader.empty fm0 d0 c
      = some (true, h3, f3, d3) := by
  rw [MaxFileSize_eq] at hc
  have hb0 : 0 ≤ b := le_trans h0 hab
  have hc0 : 0 ≤ c := le_trans hb0 hbc
  have hsa := divRoundUp_spec a h0
  have hsb := divRoundUp_spec b hb0
  have hsc := divRoundUp_spec c hc0
  have hmab := divRoundUp_mono h0 hab
  have hmbc := divRoundUp_mono hb0 hbc
  -- the free-space checks must have passed
  have hNCa : divRoundUp a SectorSize ≤ fm0.NumClear := by
    by_contra hx
    push_neg at hx
    rw [show f + 2 = f + 1 + 1 from rfl,
      alloc_fail_space (f + 1) FileHeader.empty fm0 d0 a
        (by rw [MaxFileSize_eq]; omega) hx] at hA
    simp at hA
  have hNCb : divRoundUp b SectorSize ≤ f1.NumClear := by
    by_contra hx
    push_neg at hx
    rw [show f + 2 = f + 1 + 1 from rfl,
      ext_fail_space (f + 1) h1 f1 d1 b
        (by rw [MaxFileSize_eq]; omega) hx] at hB
    simp at hB
  have hNCc : divRoundUp c SectorSize ≤ f2.NumClear := by
    by_contra hx
    push_neg at hx
    rw [show f + 2 = f + 1 + 1 from rfl,
      ext_fail_space (f + 1) h2 f2 d2 c
        (by rw [MaxFileSize_eq]; omega) hx] at hC
    simp at hC
  by_cases hcase_c : c ≤ 3712
  · -- Case A: all three sizes direct
    rw [show f + 2 = f + 1 + 1 from rfl,
      alloc_direct_shape (f + 1) FileHeader.empty fm0 d0 a h0 (by omega) hNCa]
      at hA
    simp only [Option.some_inj, Prod.mk.injEq, true_and] at hA
    obtain ⟨e1, e2, e3⟩ := hA
    subst e1
    subst e2
    subst e3
    rw [show f + 2 = f + 1 + 1 from rfl,
      ext_direct_shape (f + 1) _ _ _ b hb0 (by omega) hNCb] at hB
    simp only [Option.some_inj, Prod.mk.injEq, true_and] at hB
    obtain ⟨e1, e2, e3⟩ := hB
    subst e1
    subst e2
    subst e3
    rw [show f + 2 = f + 1 + 1 from rfl,
      ext_direct_shape (f + 1) _ _ _ c hc0 (by omega) hNCc] at hC
    simp only [Option.some_inj, Prod.mk.injEq, true_and] at hC
    obtain ⟨e1, e2, e3⟩ := hC
    subst e1
    subst e2
    subst e3
    have hNCc0 : divRoundUp c SectorSize ≤ fm0.NumClear :=
      le_trans hNCc (le_trans (claimLoop_NumClear_le _ _ _ _)
        (claimLoop_NumClear_le _ _ _ _))
    rw [show f + 2 = f + 1 + 1 from rfl,
      alloc_direct_shape (f + 1) FileHeader.empty fm0 d0 c hc0 (by omega) hNCc0]
    rw [show (divRoundUp c SectorSize).toNat
        = (divRoundUp a SectorSize).toNat
          + ((divRoundUp b SectorSize - divRoundUp a SectorSize).toNat
            + (divRoundUp c SectorSize - divRoundUp b SectorSize).toNat)
      from by omega]
    rw [claimLoop_comp]
    rw [show (0 : Nat) + (divRoundUp a SectorSize).toNat
        = (divRoundUp a SectorSize).toNat from Nat.zero_add _]
    rw [claimLoop_comp]
    rw [show (divRoundUp a SectorSize).toNat
        + (divRoundUp b SectorSize - divRoundUp a SectorSize).toNat
        = (divRoundUp b SectorSize).toNat from by omega]
  · by_cases hcase_b : b ≤ 3712
    · -- Case B: a, b direct; c indirect
      have hdb29 : divRoundUp b SectorSize ≤ 29 := (divRoundUp_le29 hb0).mpr hcase_b
      have hdc : divRoundUp c SectorSize = 30 :=
        divRoundUp_eq30 (by omega) (by omega)
      rw [show f + 2 = f + 1 + 1 from rfl,
        alloc_direct_shape (f + 1) FileHeader.empty fm0 d0 a h0 (by omega) hNCa]
        at hA
      simp only [Option.some_inj, Prod.mk.injEq, true_and] at hA
      obtain ⟨e1, e2, e3⟩ := hA
      subst e1
      subst e2
      subst e3
      rw [show f + 2 = f + 1 + 1 from rfl,
        ext_direct_shape (f + 1) _ _ _ b hb0 (by omega) hNCb] at hB
      simp only [Option.some_inj, Prod.mk.injEq, true_and] at hB
      obtain ⟨e1, e2, e3⟩ := hB
      subst e1
      subst e2
      subst e3
      rw [hdc] at hNCc
      rw [ext_cross_shape f _ _ _ c (by omega) (by omega) hNCc
        (by show b ≤ (3712 : Int); omega)
        (by show (0 : Int) ≤ divRoundUp b SectorSize; omega)] at hC
      simp only [Option.some_inj, Prod.mk.injEq, true_and] at hC
      obtain ⟨e1, e2, e3⟩ := hC
      subst e1
      subst e2
      subst e3
      have h30 : (30 : Int) ≤ fm0.NumClear :=
        le_trans hNCc (le_trans (claimLoop_NumClear_le _ _ _ _)
          (claimLoop_NumClear_le _ _ _ _))
      rw [alloc_indirect_shape f FileHeader.empty fm0 d0 c (by omega) (by omega)
        h30]
      have hP : claimLoop
          (claimLoop (claimLoop FileHeader.empty.dataSectors fm0 0
              (divRoundUp a SectorSize).toNat).1
            (claimLoop FileHeader.empty.dataSectors fm0 0
              (divRoundUp a SectorSize).toNat).2
            (divRoundUp a SectorSize).toNat
            (divRoundUp b SectorSize - divRoundUp a SectorSize).toNat).1
          (claimLoop (claimLoop FileHeader.empty.dataSectors fm0 0
              (divRoundUp a SectorSize).toNat).1
            (claimLoop FileHeader.empty.dataSectors fm0 0
              (divRoundUp a SectorSize).toNat).2
            (divRoundUp a SectorSize).toNat
            (divRoundUp b SectorSize - divRoundUp a SectorSize).toNat).2
          (divRoundUp b SectorSize).toNat
          (29 - divRoundUp b SectorSize).toNat
          = claimLoop FileHeader.empty.dataSectors fm0 0 29 := by
        rw [show (29 : Nat)
            = (divRoundUp a SectorSize).toNat
              + ((divRoundUp b SectorSize - divRoundUp a SectorSize).toNat
                + (29 - divRoundUp b SectorSize).toNat) from by omega]
        rw [claimLoop_comp]
        rw [show (0 : Nat) + (divRoundUp a SectorSize).toNat
            = (divRoundUp a SectorSize).toNat from Nat.zero_add _]
        rw [claimLoop_comp]
        rw [show (divRoundUp a SectorSize).toNat
            + (divRoundUp b SectorSize - divRoundUp a SectorSize).toNat
            = (divRoundUp b SectorSize).toNat from by omega]
      rw [hP]
    · by_cases hcase_a : a ≤ 3712
      · -- Case C: a direct; b, c indirect
        have hdb : divRoundUp b SectorSize = 30 :=
          divRoundUp_eq30 (by omega) (by omega)
        have hdc : divRoundUp c SectorSize = 30 :=
          divRoundUp_eq30 (by omega) (by omega)
        have hdc1 : divRoundUp (c - 3712) SectorSize = 1 := by
          rw [divRoundUp_sub (by omega), hdc]
          omega
        rw [show f + 2 = f + 1 + 1 from rfl,
          alloc_direct_shape (f + 1) FileHeader.empty fm0 d0 a h0 (by omega)
            hNCa] at hA
        simp only [Option.some_inj, Prod.mk.injEq, true_and] at hA
        obtain ⟨e1, e2, e3⟩ := hA
        subst e1
        subst e2
        subst e3
        rw [hdb] at hNCb
        rw [ext_cross_shape f _ _ _ b (by omega) (by omega) hNCb
          (by show a ≤ (3712 : Int); omega)
          (by show (0 : Int) ≤ divRoundUp a SectorSize; omega)] at hB
        simp only [Option.some_inj, Prod.mk.injEq, true_and] at hB
        obtain ⟨e1, e2, e3⟩ := hB
        subst e1
        subst e2
        subst e3
        rw [hdc] at hNCc
        have hPpair : claimLoop
            (claimLoop FileHeader.empty.dataSectors fm0 0
              (divRoundUp a SectorSize).toNat).1
            (claimLoop FileHeader.empty.dataSectors fm0 0
              (divRoundUp a SectorSize).toNat).2
            (divRoundUp a SectorSize).toNat
            (29 - divRoundUp a SectorSize).toNat
            = claimLoop FileHeader.empty.dataSectors fm0 0 29 := by
          rw [show (29 : Nat) = (divRoundUp a SectorSize).toNat
              + (29 - divRoundUp a SectorSize).toNat from by
            have := (divRoundUp_le29 h0).mpr hcase_a
            omega]
          rw [claimLoop_comp]
          rw [show (0 : Nat) + (divRoundUp a SectorSize).toNat
              = (divRoundUp a SectorSize).toNat from Nat.zero_add _]
        rw [hPpair] at hNCc hC
        have hlen : (claimLoop FileHeader.empty.dataSectors fm0 0 29).1.length
            = 30 := by
          rw [(claimLoop_len 29 FileHeader.empty.dataSectors fm0 0).1]
          simp [FileHeader.empty, NumDirect]
        rw [chain_step f b c _ _ _ _ _ hlen (by omega) (by omega) (by omega)
          hNCc] at hC
        simp only [Option.some_inj, Prod.mk.injEq, true_and] at hC
        obtain ⟨e1, e2, e3⟩ := hC
        subst e1
        subst e2
        subst e3
        have h30 : (30 : Int) ≤ fm0.NumClear :=
          le_trans hNCc (le_trans (find_NumClear_le _)
            (le_trans (claimLoop_NumClear_le _ _ _ _)
              (claimLoop_NumClear_le _ _ _ _)))
        rw [alloc_indirect_shape f FileHeader.empty fm0 d0 c (by omega)
          (by omega) h30]
      · -- Case D: a, b, c all indirect
        have hda : divRoundUp a SectorSize = 30 :=
          divRoundUp_eq30 (by omega) (by omega)
        have hdb : divRoundUp b SectorSize = 30 :=
          divRoundUp_eq30 (by omega) (by omega)
        have hdc : divRoundUp c SectorSize = 30 :=
          divRoundUp_eq30 (by omega) (by omega)
        rw [hda] at hNCa
        rw [hdb] at hNCb
        rw [hdc] at hNCc
        rw [alloc_indirect_shape f FileHeader.empty fm0 d0 a (by omega)
          (by omega) hNCa] at hA
        simp only [Option.some_inj, Prod.mk.injEq, true_and] at hA
        obtain ⟨e1, e2, e3⟩ := hA
        subst e1
        subst e2
        subst e3
        have hlen : (claimLoop FileHeader.empty.dataSectors fm0 0 29).1.length
            = 30 := by
          rw [(claimLoop_len 29 FileHeader.empty.dataSectors fm0 0).1]
          simp [FileHeader.empty, NumDirect]
        rw [chain_step f a b _ _ _ _ _ hlen (by omega) (by omega) (by omega)
          hNCb] at hB
        simp only [Option.some_inj, Prod.mk.injEq, true_and] at hB
        obtain ⟨e1, e2, e3⟩ := hB
        subst e1
        subst e2
        subst e3
        rw [chain_step f b c _ _ _ _ _ hlen (by omega) (by omega) (by omega)
          hNCc] at hC
        simp only [Option.some_inj, Prod.mk.injEq, true_and] at hC
        obtain ⟨e1, e2, e3⟩ := hC
        subst e1
        subst e2
        subst e3
        rw [alloc_indirect_shape f FileHeader.empty fm0 d0 c (by omega)
          (by omega) hNCa]

/-- C5 counterexample: with a single-sector free map, `Allocate(128)` directly
succeeds, but the sequence `Allocate(128)` then `Extend(128)` fails at the
`Extend` step (its free-space check compares against the full new sector
count, not the delta), so the three-step sequence does not succeed whenever
the direct allocation does. -/
theorem C5_equiv_counterexample :
    (FileHeader.Allocate 2 FileHeader.empty fm1 disk0 128).map
        (fun r => r.1) = some true ∧
    (FileHeader.Allocate 2 FileHeader.empty fm1 disk0 128).bind
        (fun r1 => (FileHeader.Extend 2 r1.2.1 r1.2.2.1 r1.2.2.2 128).map
          (fun r => r.1)) = some false := by
  constructor <;> rfl

theorem C5_seq_witness :
    FileHeader.Allocate 2 FileHeader.empty fm40 disk0 300
      = some (true,
          FileHeader.mk 300 3
            ((((List.replicate 30 (0 : Int)).set 0 0).set 1 1).set 2 2),
          BitMap.mk (true :: true :: true :: List.replicate 37 false),
          disk0) :=
  C5_seq 0 100 200 300 fm40 disk0 (by decide) (by decide) (by decide)
    (by rw [MaxFileSize_eq]; decide)
    (FileHeader.mk 100 1 ((List.replicate 30 (0 : Int)).set 0 0))
    (FileHeader.mk 200 2 (((List.replicate 30 (0 : Int)).set 0 0).set 1 1))
    (FileHeader.mk 300 3
      ((((List.replicate 30 (0 : Int)).set 0 0).set 1 1).set 2 2))
    (BitMap.mk (true :: List.replicate 39 false))
    (BitMap.mk (true :: true :: List.replicate 38 false))
    (BitMap.mk (true :: true :: true :: List.replicate 37 false))
    disk0 disk0 disk0 rfl rfl rfl

/-- C3 counterexample: `Extend` to 3841 bytes succeeds because its ceiling
check compares the new sector count (31) against the byte-denominated
constant `MaxFileSize` (3840), while `Allocate` of 3841 bytes fails its
byte-against-byte ceiling check, so the two do not fail under the same
conditions. -/
theorem C3_extend_failure_counterexample :
    (FileHeader.Extend 2 FileHeader.empty fm40 disk0 3841).map
        (fun r => r.1) = some true ∧
    (FileHeader.Allocate 2 FileHeader.empty fm40 disk0 3841).map
        (fun r => r.1) = some false := by
  constructor <;> rfl
